import Mathlib

/-!
Verification of the octree color quantizer (src/octree_quantizer.py).

The Python code builds a mutable octree whose nodes are aliased between the
tree structure (`children` slots) and a per-level registry held by the
quantizer.  We embed it with an explicit arena: every `OctreeNode` lives at an
integer id inside `OctreeQuantizer.nodes`, child slots and registry entries
hold ids, and each mutating Python method becomes a state-passing function.

`OctreeQuantizer.MAX_DEPTH` is a *class* attribute in the source, reassigned
by every `__init__`.  We therefore thread the current value of that class
attribute as an explicit first argument `MD` through every operation that
reads it, and model construction as returning the new class-attribute value.

Python exceptions (KeyError on a missing registry level, ZeroDivisionError in
`get_color`) are modelled with `Option`: `none` is an uncaught exception.
`OctreeNode.get_palette_index` can also *return* the value `None` by falling
off the end of the function; that Python-level `None` is modelled as the inner
layer of `Option (Option Nat)` (outer `none` = exception or exhausted fuel,
`some none` = the function returned `None`).

Recursive tree walks (`get_leaf_nodes`, `get_palette_index`) terminate in
Python only because the arena is acyclic; the embedding makes them total with
a fuel argument.  Fuel `q.nodes.length + 1` is always sufficient because child
ids are strictly larger than their parent's id in every reachable state.
-/

/-- `Color` from the source: plain RGB(A) value holder. -/
structure Color where
  red : Nat
  green : Nat
  blue : Nat
  alpha : Option Nat := none
deriving DecidableEq, Repr

/-- `OctreeNode` from the source.  `children` is the fixed array of 8 slots;
a slot holds the arena id of the child node.  `color` is the running sum
accumulator (the `self.color` field, mutated in place in Python). -/
structure OctreeNode where
  color : Color
  pixel_count : Nat
  palette_index : Nat
  children : List (Option Nat)
deriving DecidableEq, Repr

/-- The state owned by one `OctreeQuantizer` instance: the arena of nodes,
the per-level registry `levels` (list position = dict key), and the id of the
root node. -/
structure OctreeQuantizer where
  nodes : List OctreeNode
  levels : List (List Nat)
  root : Nat
deriving DecidableEq, Repr

/-- The freshly constructed node state from `OctreeNode.__init__`:
`Color(0, 0, 0)`, zero pixel count, palette index 0, eight empty slots. -/
def newOctreeNode : OctreeNode :=
  { color := { red := 0, green := 0, blue := 0, alpha := none }
    pixel_count := 0
    palette_index := 0
    children := List.replicate 8 (none : Option Nat) }

/-- `OctreeNode.__init__(level, parent)` together with
`OctreeQuantizer.add_level_node`: append a fresh node to the arena and, when
`level < MAX_DEPTH - 1`, append its id to `parent.levels[level]`.  A missing
registry key is a Python `KeyError`, modelled as `none`.  `MD` is the current
value of the class attribute `OctreeQuantizer.MAX_DEPTH`. -/
def createNode (MD : Nat) (level : Nat) (q : OctreeQuantizer) :
    Option (OctreeQuantizer × Nat) :=
  let nid := q.nodes.length
  let q1 : OctreeQuantizer := { q with nodes := q.nodes ++ [newOctreeNode] }
  if level < MD - 1 then
    match q1.levels[level]? with
    | none => none
    | some lst => some ({ q1 with levels := q1.levels.set level (lst ++ [nid]) }, nid)
  else
    some (q1, nid)

/-- `OctreeNode.is_leaf`. -/
def OctreeNode.is_leaf (n : OctreeNode) : Bool :=
  n.pixel_count > 0

/-- `OctreeNode.get_color_index_for_level`: one bit of each channel at
position `7 - level` (mask `0x80 >> level`), red into bit 2, green into
bit 1, blue into bit 0. -/
def OctreeNode.get_color_index_for_level (color : Color) (level : Nat) : Nat :=
  let mask := 0x80 >>> level
  (if color.red &&& mask ≠ 0 then 4 else 0) |||
    (if color.green &&& mask ≠ 0 then 2 else 0) |||
    (if color.blue &&& mask ≠ 0 then 1 else 0)

/-- `OctreeNode.get_color`: per-channel floor average.  In Python a zero
`pixel_count` raises ZeroDivisionError, modelled as `none`. -/
def OctreeNode.get_color (n : OctreeNode) : Option Color :=
  if n.pixel_count = 0 then none
  else some { red := n.color.red / n.pixel_count
              green := n.color.green / n.pixel_count
              blue := n.color.blue / n.pixel_count
              alpha := none }

/-- `OctreeNode.add_color(color, level, parent)` on the node with arena id
`nid`.  At `level >= MAX_DEPTH` the node absorbs the color; otherwise the
branch child is created on demand (registering it via `createNode`) and the
call recurses into it at `level + 1`.  The structural `fuel` argument is an
embedding artifact: one unit is consumed per descent, so any fuel
`≥ MD - level` makes it agree with the Python recursion. -/
def addColorAux (MD : Nat) (fuel : Nat) (q : OctreeQuantizer) (nid : Nat)
    (c : Color) (level : Nat) : Option OctreeQuantizer :=
  if MD ≤ level then
    match q.nodes[nid]? with
    | none => none
    | some n =>
      let n1 : OctreeNode :=
        { n with
          color := { n.color with
            red := n.color.red + c.red
            green := n.color.green + c.green
            blue := n.color.blue + c.blue }
          pixel_count := n.pixel_count + 1 }
      some { q with nodes := q.nodes.set nid n1 }
  else
    match fuel with
    | 0 => none
    | fuel' + 1 =>
      match q.nodes[nid]? with
      | none => none
      | some n =>
        let index := OctreeNode.get_color_index_for_level c level
        match n.children[index]? with
        | none => none
        | some (some cid) => addColorAux MD fuel' q cid c (level + 1)
        | some none =>
          match createNode MD level q with
          | none => none
          | some (q1, cid) =>
            match q1.nodes[nid]? with
            | none => none
            | some n1 =>
              let n2 : OctreeNode := { n1 with children := n1.children.set index (some cid) }
              addColorAux MD fuel' { q1 with nodes := q1.nodes.set nid n2 } cid c (level + 1)

/-- The loop body of `OctreeNode.get_leaf_nodes`: walk the 8 child slots in
order, collecting leaf children and descending (via `descend`) into non-leaf
children. -/
def leafWalk (q : OctreeQuantizer) (descend : Nat → Option (List Nat)) :
    List (Option Nat) → Option (List Nat)
  | [] => some []
  | none :: rest => leafWalk q descend rest
  | some cid :: rest =>
    match q.nodes[cid]? with
    | none => none
    | some cn =>
      match (if cn.is_leaf then some [cid] else descend cid),
          leafWalk q descend rest with
      | some here, some there => some (here ++ there)
      | _, _ => none

/-- `OctreeNode.get_leaf_nodes` on the node with arena id `nid`.  The `fuel`
bounds the recursion depth (Python relies on the arena being acyclic); one
unit is consumed per tree level. -/
def getLeafNodes (q : OctreeQuantizer) : Nat → Nat → Option (List Nat)
  | 0, _ => none
  | fuel + 1, nid =>
    match q.nodes[nid]? with
    | none => none
    | some n => leafWalk q (fun cid => getLeafNodes q fuel cid) n.children

/-- `OctreeQuantizer.get_leaves`. -/
def OctreeQuantizer.get_leaves (q : OctreeQuantizer) : Option (List Nat) :=
  getLeafNodes q q.nodes.length q.root

/-- The fallback scan in `OctreeNode.get_palette_index`: the first non-empty
child slot in index order 0..7. -/
def firstChild : List (Option Nat) → Option Nat
  | [] => none
  | some cid :: _ => some cid
  | none :: rest => firstChild rest

/-- `OctreeNode.get_palette_index(color, level)` on the node with arena id
`nid`.  Result `some (some i)` is a returned index, `some none` is Python
falling off the end of the function and returning `None` (non-leaf node with
no children at all), `none` is an embedding failure (exhausted fuel or a
dangling arena id, neither of which occurs in reachable states). -/
def getPaletteIndexAux (q : OctreeQuantizer) :
    Nat → Nat → Color → Nat → Option (Option Nat)
  | 0, _, _, _ => none
  | fuel + 1, nid, c, level =>
    match q.nodes[nid]? with
    | none => none
    | some n =>
      if n.is_leaf then some (some n.palette_index)
      else
        match n.children[OctreeNode.get_color_index_for_level c level]? with
        | none => none
        | some (some cid) => getPaletteIndexAux q fuel cid c (level + 1)
        | some none =>
          match firstChild n.children with
          | some cid => getPaletteIndexAux q fuel cid c (level + 1)
          | none => some none

/-- `OctreeQuantizer.get_palette_index(color)`. -/
def OctreeQuantizer.get_palette_index (q : OctreeQuantizer) (c : Color) :
    Option (Option Nat) :=
  getPaletteIndexAux q (q.nodes.length + 1) q.root c 0

/-- The loop of `OctreeNode.remove_leaves`: fold each existing child's color
sums and pixel count into the node `nid`, counting the folds; the final
Python return value is `result - 1`. -/
def removeLeavesGo (q : OctreeQuantizer) (nid : Nat) :
    List (Option Nat) → Int → Option (OctreeQuantizer × Int)
  | [], result => some (q, result - 1)
  | none :: rest, result => removeLeavesGo q nid rest result
  | some cid :: rest, result =>
    match q.nodes[cid]?, q.nodes[nid]? with
    | some cn, some n =>
      let n1 : OctreeNode :=
        { n with
          color := { n.color with
            red := n.color.red + cn.color.red
            green := n.color.green + cn.color.green
            blue := n.color.blue + cn.color.blue }
          pixel_count := n.pixel_count + cn.pixel_count }
      removeLeavesGo { q with nodes := q.nodes.set nid n1 } nid rest (result + 1)
    | _, _ => none

/-- `OctreeNode.remove_leaves` on the node with arena id `nid`. -/
def removeLeaves (q : OctreeQuantizer) (nid : Nat) : Option (OctreeQuantizer × Int) :=
  match q.nodes[nid]? with
  | none => none
  | some n => removeLeavesGo q nid n.children 0

/-- The inner reduction loop of `OctreeQuantizer.make_palette`: reduce the
registered nodes of one level in creation order, stopping as soon as
`leaf_count <= color_count`. -/
def reduceLevelGo (q : OctreeQuantizer) :
    List Nat → Int → Int → Option (OctreeQuantizer × Int)
  | [], leaf_count, _ => some (q, leaf_count)
  | nid :: rest, leaf_count, color_count =>
    match removeLeaves q nid with
    | none => none
    | some (q1, d) =>
      let leaf_count := leaf_count - d
      if leaf_count ≤ color_count then some (q1, leaf_count)
      else reduceLevelGo q1 rest leaf_count color_count

/-- The outer reduction loop of `make_palette` over levels
`MAX_DEPTH - 1, ..., 0`.  A registry level that is empty (Python falsy) is
skipped; after fully reducing a level without reaching the target, that
level's registry entry is cleared. -/
def reduceLoop (q : OctreeQuantizer) :
    List Nat → Int → Int → Option (OctreeQuantizer × Int)
  | [], leaf_count, _ => some (q, leaf_count)
  | level :: rest, leaf_count, color_count =>
    match q.levels[level]? with
    | none => none
    | some lst =>
      if lst.isEmpty then reduceLoop q rest leaf_count color_count
      else
        match reduceLevelGo q lst leaf_count color_count with
        | none => none
        | some (q1, leaf_count1) =>
          if leaf_count1 ≤ color_count then some (q1, leaf_count1)
          else reduceLoop { q1 with levels := q1.levels.set level [] }
            rest leaf_count1 color_count

/-- The palette-building loop of `make_palette`: walk the enumerated leaves,
stop once `palette_index >= color_count`, append each leaf's average color
and stamp the leaf with its palette position. -/
def buildPalette (q : OctreeQuantizer) :
    List Nat → List Color → Nat → Int → Option (List Color × OctreeQuantizer)
  | [], palette, _, _ => some (palette, q)
  | nid :: rest, palette, palette_index, color_count =>
    if color_count ≤ (palette_index : Int) then some (palette, q)
    else
      match q.nodes[nid]? with
      | none => none
      | some n =>
        match (if n.is_leaf then (n.get_color).map (fun col => palette ++ [col])
               else some palette) with
        | none => none
        | some palette1 =>
          let n1 : OctreeNode := { n with palette_index := palette_index }
          buildPalette { q with nodes := q.nodes.set nid n1 }
            rest palette1 (palette_index + 1) color_count

/-- `OctreeQuantizer.make_palette(color_count)`.  `MD` is the current class
attribute `MAX_DEPTH` (read by the `range(MAX_DEPTH - 1, -1, -1)` loop). -/
def OctreeQuantizer.make_palette (MD : Nat) (q : OctreeQuantizer)
    (color_count : Int) : Option (List Color × OctreeQuantizer) :=
  match q.get_leaves with
  | none => none
  | some leaves0 =>
    match reduceLoop q (List.range MD).reverse (leaves0.length : Int) color_count with
    | none => none
    | some (q1, _) =>
      match q1.get_leaves with
      | none => none
      | some leaves1 => buildPalette q1 leaves1 [] 0 color_count

/-- `OctreeQuantizer.add_color(color)`.  Fuel `MD` covers the full descent
from level 0 to `MAX_DEPTH`. -/
def OctreeQuantizer.add_color (MD : Nat) (q : OctreeQuantizer) (c : Color) :
    Option OctreeQuantizer :=
  addColorAux MD MD q q.root c 0

/-- `OctreeQuantizer.__init__(max_depth)`: set the class attribute (returned
separately by `constructQuantizer`), build the registry for keys
`0..max_depth-1`, and create the root node at level 0. -/
def OctreeQuantizer.init (max_depth : Nat) : Option OctreeQuantizer :=
  let q0 : OctreeQuantizer :=
    { nodes := [], levels := List.replicate max_depth [], root := 0 }
  match createNode max_depth 0 q0 with
  | none => none
  | some (q1, rid) => some { q1 with root := rid }

/-- Construction including its effect on the class attribute
`OctreeQuantizer.MAX_DEPTH`: the previous class value `_cls` is overwritten
with `max_depth`, and every later operation of *any* instance reads the new
value. -/
def constructQuantizer (max_depth : Nat) (_cls : Nat) :
    Nat × Option OctreeQuantizer :=
  (max_depth, OctreeQuantizer.init max_depth)

/-- A quantizer built with the default `max_depth = 8` followed by a sequence
of `add_color` calls (the class attribute stays 8 throughout). -/
def addAll (MD : Nat) : Option OctreeQuantizer → List Color → Option OctreeQuantizer
  | none, _ => none
  | some q, [] => some q
  | some q, c :: rest => addAll MD (q.add_color MD c) rest

/-- Phase 1 with the default configuration: construct with `max_depth = 8`
and ingest the given colors in order. -/
def buildQ (cs : List Color) : Option OctreeQuantizer :=
  addAll 8 (OctreeQuantizer.init 8) cs

/-- Observation helper (not a source method): the node reached from the root
by re-deriving the branch path of `c`, stopping at the first leaf — "the leaf
`c` is routed into".  Mirrors the descent of `add_color`/`get_palette_index`
without the fallback. -/
def routeNodeAux (q : OctreeQuantizer) : Nat → Nat → Color → Nat → Option Nat
  | 0, _, _, _ => none
  | fuel + 1, nid, c, level =>
    match q.nodes[nid]? with
    | none => none
    | some n =>
      if n.is_leaf then some nid
      else
        match n.children[OctreeNode.get_color_index_for_level c level]? with
        | some (some cid) => routeNodeAux q fuel cid c (level + 1)
        | _ => none

/-- Observation helper: the routed leaf for `c`, from the root. -/
def routeNode (q : OctreeQuantizer) (c : Color) : Option Nat :=
  routeNodeAux q (q.nodes.length + 1) q.root c 0

/-- Observation helper (not a source method): the arena id of the node at
which the descent of `get_palette_index` ends (same traversal, including the
first-existing-child fallback, but returning the landing node instead of its
palette index). -/
def lookupLeafAux (q : OctreeQuantizer) : Nat → Nat → Color → Nat → Option (Option Nat)
  | 0, _, _, _ => none
  | fuel + 1, nid, c, level =>
    match q.nodes[nid]? with
    | none => none
    | some n =>
      if n.is_leaf then some (some nid)
      else
        match n.children[OctreeNode.get_color_index_for_level c level]? with
        | none => none
        | some (some cid) => lookupLeafAux q fuel cid c (level + 1)
        | some none =>
          match firstChild n.children with
          | some cid => lookupLeafAux q fuel cid c (level + 1)
          | none => some none

/-- Observation helper: the landing node of `get_palette_index` from the root. -/
def lookupLeaf (q : OctreeQuantizer) (c : Color) : Option (Option Nat) :=
  lookupLeafAux q (q.nodes.length + 1) q.root c 0


/-! ### Concrete scenario states shared by several claims

Evaluating a staged pipeline in one definitional step is too expensive for
the kernel, so each intermediate state of the concrete scenarios is spelled
out as a literal and every single transition is proved separately. -/

/-- Shorthand for node literals: `N r g b pixel_count palette_index children`. -/
def N (r g b pc pi : Nat) (ch : List (Option Nat)) : OctreeNode :=
  { color := { red := r, green := g, blue := b, alpha := none },
    pixel_count := pc, palette_index := pi, children := ch }

/-- Shorthand for an RGB color with no alpha. -/
def Cl (r g b : Nat) : Color := { red := r, green := g, blue := b, alpha := none }

/-- The four colors of the spec's concrete test scenario. -/
def blackC : Color := Cl 0 0 0

/-- Near-black `(1,1,1)`. -/
def nearBlackC : Color := Cl 1 1 1

/-- White `(255,255,255)`. -/
def whiteC : Color := Cl 255 255 255

/-- Near-white `(254,254,254)`. -/
def nearWhiteC : Color := Cl 254 254 254

/-- The scenario's ingest sequence. -/
def fourColors : List Color := [blackC, nearBlackC, whiteC, nearWhiteC]

/-- Default-constructed quantizer, the four scenario colors added, then
`make_palette(2)`, all under the untouched class attribute `MAX_DEPTH = 8`. -/
def fourColorRun : Option (List Color × OctreeQuantizer) :=
  (buildQ fourColors).bind (fun q => q.make_palette 8 2)

/-- State after `OctreeQuantizer(8)`: one root node, registered at level 0. -/
def QI : OctreeQuantizer :=
  ⟨[N 0 0 0 0 0 [none, none, none, none, none, none, none, none]],
   [[0], [], [], [], [], [], [], []], 0⟩

/-- State after adding `(0,0,0)`: a chain of ids 0..8, the leaf at id 8. -/
def Q1 : OctreeQuantizer :=
  ⟨[N 0 0 0 0 0 [some 1, none, none, none, none, none, none, none],
    N 0 0 0 0 0 [some 2, none, none, none, none, none, none, none],
    N 0 0 0 0 0 [some 3, none, none, none, none, none, none, none],
    N 0 0 0 0 0 [some 4, none, none, none, none, none, none, none],
    N 0 0 0 0 0 [some 5, none, none, none, none, none, none, none],
    N 0 0 0 0 0 [some 6, none, none, none, none, none, none, none],
    N 0 0 0 0 0 [some 7, none, none, none, none, none, none, none],
    N 0 0 0 0 0 [some 8, none, none, none, none, none, none, none],
    N 0 0 0 1 0 [none, none, none, none, none, none, none, none]],
   [[0, 1], [2], [3], [4], [5], [6], [7], []], 0⟩

/-- State after also adding `(1,1,1)`: it shares the chain down to id 7 and
lands in a new leaf, id 9, in child slot 7 of node 7. -/
def Q2 : OctreeQuantizer :=
  ⟨[N 0 0 0 0 0 [some 1, none, none, none, none, none, none, none],
    N 0 0 0 0 0 [some 2, none, none, none, none, none, none, none],
    N 0 0 0 0 0 [some 3, none, none, none, none, none, none, none],
    N 0 0 0 0 0 [some 4, none, none, none, none, none, none, none],
    N 0 0 0 0 0 [some 5, none, none, none, none, none, none, none],
    N 0 0 0 0 0 [some 6, none, none, none, none, none, none, none],
    N 0 0 0 0 0 [some 7, none, none, none, none, none, none, none],
    N 0 0 0 0 0 [some 8, none, none, none, none, none, none, some 9],
    N 0 0 0 1 0 [none, none, none, none, none, none, none, none],
    N 1 1 1 1 0 [none, none, none, none, none, none, none, none]],
   [[0, 1], [2], [3], [4], [5], [6], [7], []], 0⟩

/-- State after also adding `(255,255,255)`: a second chain, ids 10..17. -/
def Q3 : OctreeQuantizer :=
  ⟨[N 0 0 0 0 0 [some 1, none, none, none, none, none, none, some 10],
    N 0 0 0 0 0 [some 2, none, none, none, none, none, none, none],
    N 0 0 0 0 0 [some 3, none, none, none, none, none, none, none],
    N 0 0 0 0 0 [some 4, none, none, none, none, none, none, none],
    N 0 0 0 0 0 [some 5, none, none, none, none, none, none, none],
    N 0 0 0 0 0 [some 6, none, none, none, none, none, none, none],
    N 0 0 0 0 0 [some 7, none, none, none, none, none, none, none],
    N 0 0 0 0 0 [some 8, none, none, none, none, none, none, some 9],
    N 0 0 0 1 0 [none, none, none, none, none, none, none, none],
    N 1 1 1 1 0 [none, none, none, none, none, none, none, none],
    N 0 0 0 0 0 [none, none, none, none, none, none, none, some 11],
    N 0 0 0 0 0 [none, none, none, none, none, none, none, some 12],
    N 0 0 0 0 0 [none, none, none, none, none, none, none, some 13],
    N 0 0 0 0 0 [none, none, none, none, none, none, none, some 14],
    N 0 0 0 0 0 [none, none, none, none, none, none, none, some 15],
    N 0 0 0 0 0 [none, none, none, none, none, none, none, some 16],
    N 0 0 0 0 0 [none, none, none, none, none, none, none, some 17],
    N 255 255 255 1 0 [none, none, none, none, none, none, none, none]],
   [[0, 1, 10], [2, 11], [3, 12], [4, 13], [5, 14], [6, 15], [7, 16], []], 0⟩

/-- State after also adding `(254,254,254)`: new leaf id 18 under node 16. -/
def Q4 : OctreeQuantizer :=
  ⟨[N 0 0 0 0 0 [some 1, none, none, none, none, none, none, some 10],
    N 0 0 0 0 0 [some 2, none, none, none, none, none, none, none],
    N 0 0 0 0 0 [some 3, none, none, none, none, none, none, none],
    N 0 0 0 0 0 [some 4, none, none, none, none, none, none, none],
    N 0 0 0 0 0 [some 5, none, none, none, none, none, none, none],
    N 0 0 0 0 0 [some 6, none, none, none, none, none, none, none],
    N 0 0 0 0 0 [some 7, none, none, none, none, none, none, none],
    N 0 0 0 0 0 [some 8, none, none, none, none, none, none, some 9],
    N 0 0 0 1 0 [none, none, none, none, none, none, none, none],
    N 1 1 1 1 0 [none, none, none, none, none, none, none, none],
    N 0 0 0 0 0 [none, none, none, none, none, none, none, some 11],
    N 0 0 0 0 0 [none, none, none, none, none, none, none, some 12],
    N 0 0 0 0 0 [none, none, none, none, none, none, none, some 13],
    N 0 0 0 0 0 [none, none, none, none, none, none, none, some 14],
    N 0 0 0 0 0 [none, none, none, none, none, none, none, some 15],
    N 0 0 0 0 0 [none, none, none, none, none, none, none, some 16],
    N 0 0 0 0 0 [some 18, none, none, none, none, none, none, some 17],
    N 255 255 255 1 0 [none, none, none, none, none, none, none, none],
    N 254 254 254 1 0 [none, none, none, none, none, none, none, none]],
   [[0, 1, 10], [2, 11], [3, 12], [4, 13], [5, 14], [6, 15], [7, 16], []], 0⟩

/-- State after `make_palette(2)` on `Q4`: nodes 7 and 16 absorbed their leaf
children and carry palette indices 0 and 1. -/
def MP4post : OctreeQuantizer :=
  ⟨[N 0 0 0 0 0 [some 1, none, none, none, none, none, none, some 10],
    N 0 0 0 0 0 [some 2, none, none, none, none, none, none, none],
    N 0 0 0 0 0 [some 3, none, none, none, none, none, none, none],
    N 0 0 0 0 0 [some 4, none, none, none, none, none, none, none],
    N 0 0 0 0 0 [some 5, none, none, none, none, none, none, none],
    N 0 0 0 0 0 [some 6, none, none, none, none, none, none, none],
    N 0 0 0 0 0 [some 7, none, none, none, none, none, none, none],
    N 1 1 1 2 0 [some 8, none, none, none, none, none, none, some 9],
    N 0 0 0 1 0 [none, none, none, none, none, none, none, none],
    N 1 1 1 1 0 [none, none, none, none, none, none, none, none],
    N 0 0 0 0 0 [none, none, none, none, none, none, none, some 11],
    N 0 0 0 0 0 [none, none, none, none, none, none, none, some 12],
    N 0 0 0 0 0 [none, none, none, none, none, none, none, some 13],
    N 0 0 0 0 0 [none, none, none, none, none, none, none, some 14],
    N 0 0 0 0 0 [none, none, none, none, none, none, none, some 15],
    N 0 0 0 0 0 [none, none, none, none, none, none, none, some 16],
    N 509 509 509 2 1 [some 18, none, none, none, none, none, none, some 17],
    N 255 255 255 1 0 [none, none, none, none, none, none, none, none],
    N 254 254 254 1 0 [none, none, none, none, none, none, none, none]],
   [[0, 1, 10], [2, 11], [3, 12], [4, 13], [5, 14], [6, 15], [7, 16], []], 0⟩

/-- State after adding `(0,0,0)` then `(255,255,255)` (the C9 scenario). -/
def W2 : OctreeQuantizer :=
  ⟨[N 0 0 0 0 0 [some 1, none, none, none, none, none, none, some 9],
    N 0 0 0 0 0 [some 2, none, none, none, none, none, none, none],
    N 0 0 0 0 0 [some 3, none, none, none, none, none, none, none],
    N 0 0 0 0 0 [some 4, none, none, none, none, none, none, none],
    N 0 0 0 0 0 [some 5, none, none, none, none, none, none, none],
    N 0 0 0 0 0 [some 6, none, none, none, none, none, none, none],
    N 0 0 0 0 0 [some 7, none, none, none, none, none, none, none],
    N 0 0 0 0 0 [some 8, none, none, none, none, none, none, none],
    N 0 0 0 1 0 [none, none, none, none, none, none, none, none],
    N 0 0 0 0 0 [none, none, none, none, none, none, none, some 10],
    N 0 0 0 0 0 [none, none, none, none, none, none, none, some 11],
    N 0 0 0 0 0 [none, none, none, none, none, none, none, some 12],
    N 0 0 0 0 0 [none, none, none, none, none, none, none, some 13],
    N 0 0 0 0 0 [none, none, none, none, none, none, none, some 14],
    N 0 0 0 0 0 [none, none, none, none, none, none, none, some 15],
    N 0 0 0 0 0 [none, none, none, none, none, none, none, some 16],
    N 255 255 255 1 0 [none, none, none, none, none, none, none, none]],
   [[0, 1, 9], [2, 10], [3, 11], [4, 12], [5, 13], [6, 14], [7, 15], []], 0⟩

/-- State after `make_palette(1)` on `W2`: the reduction desynchronizes its
leaf counter at the root fold, leaving the two depth-2 leaves (ids 2 and 10);
only id 2 gets a palette slot. -/
def MPWpost : OctreeQuantizer :=
  ⟨[N 0 0 0 0 0 [some 1, none, none, none, none, none, none, some 9],
    N 0 0 0 0 0 [some 2, none, none, none, none, none, none, none],
    N 0 0 0 1 0 [some 3, none, none, none, none, none, none, none],
    N 0 0 0 1 0 [some 4, none, none, none, none, none, none, none],
    N 0 0 0 1 0 [some 5, none, none, none, none, none, none, none],
    N 0 0 0 1 0 [some 6, none, none, none, none, none, none, none],
    N 0 0 0 1 0 [some 7, none, none, none, none, none, none, none],
    N 0 0 0 1 0 [some 8, none, none, none, none, none, none, none],
    N 0 0 0 1 0 [none, none, none, none, none, none, none, none],
    N 0 0 0 0 0 [none, none, none, none, none, none, none, some 10],
    N 255 255 255 1 0 [none, none, none, none, none, none, none, some 11],
    N 255 255 255 1 0 [none, none, none, none, none, none, none, some 12],
    N 255 255 255 1 0 [none, none, none, none, none, none, none, some 13],
    N 255 255 255 1 0 [none, none, none, none, none, none, none, some 14],
    N 255 255 255 1 0 [none, none, none, none, none, none, none, some 15],
    N 255 255 255 1 0 [none, none, none, none, none, none, none, some 16],
    N 255 255 255 1 0 [none, none, none, none, none, none, none, none]],
   [[0, 1, 9], [], [], [], [], [], [], []], 0⟩

/-- Class attribute set to 1: adding `(0,0,0)` to the previously constructed
`QI` creates a single depth-1 leaf. -/
def R1 : OctreeQuantizer :=
  ⟨[N 0 0 0 0 0 [some 1, none, none, none, none, none, none, none],
    N 0 0 0 1 0 [none, none, none, none, none, none, none, none]],
   [[0], [], [], [], [], [], [], []], 0⟩

/-- Class attribute 1, after also adding `(1,1,1)`. -/
def R2 : OctreeQuantizer :=
  ⟨[N 0 0 0 0 0 [some 1, none, none, none, none, none, none, none],
    N 1 1 1 2 0 [none, none, none, none, none, none, none, none]],
   [[0], [], [], [], [], [], [], []], 0⟩

/-- Class attribute 1, after also adding `(255,255,255)`. -/
def R3 : OctreeQuantizer :=
  ⟨[N 0 0 0 0 0 [some 1, none, none, none, none, none, none, some 2],
    N 1 1 1 2 0 [none, none, none, none, none, none, none, none],
    N 255 255 255 1 0 [none, none, none, none, none, none, none, none]],
   [[0], [], [], [], [], [], [], []], 0⟩

/-- Class attribute 1, after also adding `(254,254,254)`. -/
def R4 : OctreeQuantizer :=
  ⟨[N 0 0 0 0 0 [some 1, none, none, none, none, none, none, some 2],
    N 1 1 1 2 0 [none, none, none, none, none, none, none, none],
    N 509 509 509 2 0 [none, none, none, none, none, none, none, none]],
   [[0], [], [], [], [], [], [], []], 0⟩

/-- Class attribute 1, after `make_palette(2)` on `R4`: the root folded both
depth-1 leaves and is itself a leaf now, so every lookup stops at the root. -/
def MPRpost : OctreeQuantizer :=
  ⟨[N 510 510 510 4 0 [some 1, none, none, none, none, none, none, some 2],
    N 1 1 1 2 0 [none, none, none, none, none, none, none, none],
    N 509 509 509 2 1 [none, none, none, none, none, none, none, none]],
   [[0], [], [], [], [], [], [], []], 0⟩

/-- State after `make_palette(0)` (or `make_palette(-1)`) on `Q1`: the whole
tree was reduced, level by level, and the palette loop appended nothing. -/
def MPZpost : OctreeQuantizer :=
  ⟨[N 0 0 0 0 0 [some 1, none, none, none, none, none, none, none],
    N 0 0 0 1 0 [some 2, none, none, none, none, none, none, none],
    N 0 0 0 1 0 [some 3, none, none, none, none, none, none, none],
    N 0 0 0 1 0 [some 4, none, none, none, none, none, none, none],
    N 0 0 0 1 0 [some 5, none, none, none, none, none, none, none],
    N 0 0 0 1 0 [some 6, none, none, none, none, none, none, none],
    N 0 0 0 1 0 [some 7, none, none, none, none, none, none, none],
    N 0 0 0 1 0 [some 8, none, none, none, none, none, none, none],
    N 0 0 0 1 0 [none, none, none, none, none, none, none, none]],
   [[], [], [], [], [], [], [], []], 0⟩

/-- State after `remove_leaves` on the root of `Q1` (same nodes, since the
root's only child has `pixel_count = 0`). -/
def RL1q : OctreeQuantizer := Q1

/-! ### Staged transitions between the literal states -/

theorem step_init : OctreeQuantizer.init 8 = some QI := by rfl

theorem step_init1 : OctreeQuantizer.init 1 = some ⟨[newOctreeNode], [[]], 0⟩ := by rfl

set_option maxHeartbeats 1000000 in
theorem step_add_black : QI.add_color 8 blackC = some Q1 := by
  simp [OctreeQuantizer.add_color, addColorAux, createNode, newOctreeNode,
    OctreeNode.get_color_index_for_level, QI, Q1, N, Cl, blackC]

set_option maxHeartbeats 1000000 in
theorem step_add_nearBlack : Q1.add_color 8 nearBlackC = some Q2 := by
  simp [OctreeQuantizer.add_color, addColorAux, createNode, newOctreeNode,
    OctreeNode.get_color_index_for_level, Q1, Q2, N, Cl, nearBlackC]

set_option maxHeartbeats 1000000 in
theorem step_add_white : Q2.add_color 8 whiteC = some Q3 := by
  simp [OctreeQuantizer.add_color, addColorAux, createNode, newOctreeNode,
    OctreeNode.get_color_index_for_level, Q2, Q3, N, Cl, whiteC]

set_option maxHeartbeats 1000000 in
theorem step_add_nearWhite : Q3.add_color 8 nearWhiteC = some Q4 := by
  simp [OctreeQuantizer.add_color, addColorAux, createNode, newOctreeNode,
    OctreeNode.get_color_index_for_level, Q3, Q4, N, Cl, nearWhiteC]

set_option maxHeartbeats 1000000 in
theorem step_add_white1 : Q1.add_color 8 whiteC = some W2 := by
  simp [OctreeQuantizer.add_color, addColorAux, createNode, newOctreeNode,
    OctreeNode.get_color_index_for_level, Q1, W2, N, Cl, whiteC]

theorem addAll_cons (MD : Nat) (q : OctreeQuantizer) (c : Color) (rest : List Color) :
    addAll MD (some q) (c :: rest) = addAll MD (q.add_color MD c) rest := rfl

theorem addAll_nil (MD : Nat) (q : OctreeQuantizer) : addAll MD (some q) [] = some q := rfl

theorem step_buildQ_four : buildQ fourColors = some Q4 := by
  show addAll 8 (OctreeQuantizer.init 8) fourColors = some Q4
  rw [step_init, fourColors, addAll_cons, step_add_black, addAll_cons, step_add_nearBlack,
    addAll_cons, step_add_white, addAll_cons, step_add_nearWhite, addAll_nil]

theorem step_buildQ_black : buildQ [blackC] = some Q1 := by
  show addAll 8 (OctreeQuantizer.init 8) [blackC] = some Q1
  rw [step_init, addAll_cons, step_add_black, addAll_nil]

theorem step_buildQ_bw : buildQ [blackC, whiteC] = some W2 := by
  show addAll 8 (OctreeQuantizer.init 8) [blackC, whiteC] = some W2
  rw [step_init, addAll_cons, step_add_black, addAll_cons, step_add_white1, addAll_nil]

set_option maxHeartbeats 2000000 in
theorem step_mp4 : Q4.make_palette 8 2 = some ([Cl 0 0 0, Cl 254 254 254], MP4post) := by
  simp [OctreeQuantizer.make_palette, OctreeQuantizer.get_leaves, getLeafNodes, leafWalk,
    reduceLoop, reduceLevelGo, removeLeaves, removeLeavesGo, buildPalette,
    OctreeNode.is_leaf, OctreeNode.get_color, List.range, List.range.loop,
    Q4, MP4post, N, Cl]

set_option maxHeartbeats 2000000 in
theorem step_mpW : W2.make_palette 8 1 = some ([Cl 0 0 0], MPWpost) := by
  simp [OctreeQuantizer.make_palette, OctreeQuantizer.get_leaves, getLeafNodes, leafWalk,
    reduceLoop, reduceLevelGo, removeLeaves, removeLeavesGo, buildPalette,
    OctreeNode.is_leaf, OctreeNode.get_color, List.range, List.range.loop,
    W2, MPWpost, N, Cl]

set_option maxHeartbeats 2000000 in
theorem step_mpZ : Q1.make_palette 8 0 = some ([], MPZpost) := by
  simp [OctreeQuantizer.make_palette, OctreeQuantizer.get_leaves, getLeafNodes, leafWalk,
    reduceLoop, reduceLevelGo, removeLeaves, removeLeavesGo, buildPalette,
    OctreeNode.is_leaf, OctreeNode.get_color, List.range, List.range.loop,
    Q1, MPZpost, N, Cl]

set_option maxHeartbeats 2000000 in
theorem step_mpN : Q1.make_palette 8 (-1) = some ([], MPZpost) := by
  simp [OctreeQuantizer.make_palette, OctreeQuantizer.get_leaves, getLeafNodes, leafWalk,
    reduceLoop, reduceLevelGo, removeLeaves, removeLeavesGo, buildPalette,
    OctreeNode.is_leaf, OctreeNode.get_color, List.range, List.range.loop,
    Q1, MPZpost, N, Cl]

set_option maxHeartbeats 1000000 in
theorem step_addR1 : QI.add_color 1 blackC = some R1 := by
  simp [OctreeQuantizer.add_color, addColorAux, createNode, newOctreeNode,
    OctreeNode.get_color_index_for_level, QI, R1, N, Cl, blackC]

set_option maxHeartbeats 1000000 in
theorem step_addR2 : R1.add_color 1 nearBlackC = some R2 := by
  simp [OctreeQuantizer.add_color, addColorAux, createNode, newOctreeNode,
    OctreeNode.get_color_index_for_level, R1, R2, N, Cl, nearBlackC]

set_option maxHeartbeats 1000000 in
theorem step_addR3 : R2.add_color 1 whiteC = some R3 := by
  simp [OctreeQuantizer.add_color, addColorAux, createNode, newOctreeNode,
    OctreeNode.get_color_index_for_level, R2, R3, N, Cl, whiteC]

set_option maxHeartbeats 1000000 in
theorem step_addR4 : R3.add_color 1 nearWhiteC = some R4 := by
  simp [OctreeQuantizer.add_color, addColorAux, createNode, newOctreeNode,
    OctreeNode.get_color_index_for_level, R3, R4, N, Cl, nearWhiteC]

theorem step_buildR : addAll 1 (OctreeQuantizer.init 8) fourColors = some R4 := by
  rw [step_init, fourColors, addAll_cons, step_addR1, addAll_cons, step_addR2,
    addAll_cons, step_addR3, addAll_cons, step_addR4, addAll_nil]

set_option maxHeartbeats 2000000 in
theorem step_mpR : R4.make_palette 1 2 = some ([Cl 0 0 0, Cl 254 254 254], MPRpost) := by
  simp [OctreeQuantizer.make_palette, OctreeQuantizer.get_leaves, getLeafNodes, leafWalk,
    reduceLoop, reduceLevelGo, removeLeaves, removeLeavesGo, buildPalette,
    OctreeNode.is_leaf, OctreeNode.get_color, List.range, List.range.loop,
    R4, MPRpost, N, Cl]

set_option maxHeartbeats 1000000 in
theorem step_removeLeavesQ1 : removeLeaves Q1 0 = some (RL1q, 0) := by
  simp [removeLeaves, removeLeavesGo, Q1, RL1q, N]

set_option maxHeartbeats 1000000 in
theorem step_lk4_black : MP4post.get_palette_index blackC = some (some 0) := by
  simp [OctreeQuantizer.get_palette_index, getPaletteIndexAux, firstChild,
    OctreeNode.get_color_index_for_level, OctreeNode.is_leaf, MP4post, N, Cl, blackC]

set_option maxHeartbeats 1000000 in
theorem step_lk4_nearBlack : MP4post.get_palette_index nearBlackC = some (some 0) := by
  simp [OctreeQuantizer.get_palette_index, getPaletteIndexAux, firstChild,
    OctreeNode.get_color_index_for_level, OctreeNode.is_leaf, MP4post, N, Cl, nearBlackC]

set_option maxHeartbeats 1000000 in
theorem step_lk4_white : MP4post.get_palette_index whiteC = some (some 1) := by
  simp [OctreeQuantizer.get_palette_index, getPaletteIndexAux, firstChild,
    OctreeNode.get_color_index_for_level, OctreeNode.is_leaf, MP4post, N, Cl, whiteC]

set_option maxHeartbeats 1000000 in
theorem step_lk4_nearWhite : MP4post.get_palette_index nearWhiteC = some (some 1) := by
  simp [OctreeQuantizer.get_palette_index, getPaletteIndexAux, firstChild,
    OctreeNode.get_color_index_for_level, OctreeNode.is_leaf, MP4post, N, Cl, nearWhiteC]

set_option maxHeartbeats 1000000 in
theorem step_lkW_white : MPWpost.get_palette_index whiteC = some (some 0) := by
  simp [OctreeQuantizer.get_palette_index, getPaletteIndexAux, firstChild,
    OctreeNode.get_color_index_for_level, OctreeNode.is_leaf, MPWpost, N, Cl, whiteC]

set_option maxHeartbeats 1000000 in
theorem step_lkR_white : MPRpost.get_palette_index whiteC = some (some 0) := by
  simp [OctreeQuantizer.get_palette_index, getPaletteIndexAux, firstChild,
    OctreeNode.get_color_index_for_level, OctreeNode.is_leaf, MPRpost, N, Cl, whiteC]

set_option maxHeartbeats 1000000 in
theorem step_routeW_white : routeNode MPWpost whiteC = some 10 := by
  simp [routeNode, routeNodeAux, OctreeNode.get_color_index_for_level,
    OctreeNode.is_leaf, MPWpost, N, Cl, whiteC]

theorem step_fourColorRun :
    fourColorRun = some ([Cl 0 0 0, Cl 254 254 254], MP4post) := by
  rw [fourColorRun, step_buildQ_four]
  show Q4.make_palette 8 2 = _
  exact step_mp4

/-! ### Claim C1: the spec's concrete four-color scenario -/

/-- C1: adding `(0,0,0)`, `(1,1,1)`, `(255,255,255)`, `(254,254,254)` to a
default quantizer and calling `make_palette(2)` yields exactly the two
entries `(0,0,0)` (floor average of the near-black pair) and `(254,254,254)`
(floor average of the near-white pair); afterwards the two near-black colors
share one palette index, the two near-white colors share another, and the two
indices differ. -/
theorem c1_four_color_scenario :
    (fourColorRun.map fun pq => pq.1) = some [Cl 0 0 0, Cl 254 254 254] ∧
    ∃ i j : Option (Option Nat), i ≠ j ∧
      (fourColorRun.map fun pq =>
        (pq.2.get_palette_index blackC, pq.2.get_palette_index nearBlackC,
         pq.2.get_palette_index whiteC, pq.2.get_palette_index nearWhiteC)) =
      some (i, i, j, j) := by
  constructor
  · rw [step_fourColorRun]; rfl
  · refine ⟨some (some 0), some (some 1), by decide, ?_⟩
    rw [step_fourColorRun]
    simp only [Option.map_some']
    rw [step_lk4_black, step_lk4_nearBlack, step_lk4_white, step_lk4_nearWhite]

/-! ### Claim C3 counterexample: invalid configuration silently accepted -/

/-- C3 counterexample: on a quantizer holding one color, `make_palette(0)`
and `make_palette(-1)` return normally with an empty palette instead of
failing, and constructing with `max_depth = 0 < 1` also succeeds, so no
configuration error is raised at any of these call boundaries. -/
theorem c3_counterexample :
    (((buildQ [blackC]).bind (fun q => q.make_palette 8 0)).map Prod.fst
        = some []) ∧
    (((buildQ [blackC]).bind (fun q => q.make_palette 8 (-1))).map Prod.fst
        = some []) ∧
    (OctreeQuantizer.init 0).isSome = true := by
  refine ⟨?_, ?_, rfl⟩
  · rw [step_buildQ_black]
    show (Q1.make_palette 8 0).map Prod.fst = some []
    rw [step_mpZ]; rfl
  · rw [step_buildQ_black]
    show (Q1.make_palette 8 (-1)).map Prod.fst = some []
    rw [step_mpN]; rfl

/-! ### Claim C4 counterexample: empty-tree lookup returns None -/

/-- C4 counterexample: on a freshly constructed quantizer (no colors ever
added) `get_palette_index` returns normally with the Python value `None`
(modelled `some none`) — a non-error value — rather than failing with an
explicit error. -/
theorem c4_counterexample :
    (OctreeQuantizer.init 8).bind (fun q => q.get_palette_index blackC)
      = some none := by
  rfl

/-! ### Claim C5 counterexample: remove_leaves need not produce a leaf -/

/-- C5 counterexample: after adding the single color `(0,0,0)`, calling
`remove_leaves` on the root — whose only existing child is an internal node
with `pixel_count = 0` — returns `0` and leaves the root with
`pixel_count = 0`, i.e. *not* a leaf, contradicting the claim that the node
is always a leaf afterwards. -/
theorem c5_counterexample :
    ((buildQ [blackC]).bind (fun q => removeLeaves q 0)).map
        (fun r => (r.2, (r.1.nodes[0]?).map OctreeNode.is_leaf)) =
      some ((0 : Int), some false) := by
  rw [step_buildQ_black]
  show (removeLeaves Q1 0).map _ = _
  rw [step_removeLeavesQ1]
  rfl

/-! ### Claim C6 counterexample: registry keyed one level shallower -/

/-- C6 counterexample: after adding `(0,0,0)` the arena ids are the chain
root = 0 (depth 0), 1..7 (depths 1..7), 8 (the depth-8 leaf).  The claimed
invariant — the registry at `d` lists exactly the nodes created at depth `d` —
would put only the root at key 0 and the depth-7 node (id 7) at key 7; the
actual registry has `[0, 1]` at key 0, id 7 at key 6, and key 7 empty: the
child created by `add_color` at `level` is registered under key `level`, not
`level + 1`. -/
theorem c6_counterexample :
    (buildQ [blackC]).map (fun q => q.levels) =
      some [[0, 1], [2], [3], [4], [5], [6], [7], []] := by
  rw [step_buildQ_black]; rfl

/-! ### Claim C7 counterexample: MAX_DEPTH is shared class state -/

/-- C7 counterexample: run the four-color scenario on a quantizer built with
the default `max_depth = 8`.  If no other quantizer is constructed, lookup of
white returns index 1; if a second quantizer is constructed with
`max_depth = 1` first (making the class attribute `(constructQuantizer 1 8).1
= 1`), the *same* AddColor/MakePalette/lookup call sequence on the first
quantizer returns index 0 — its observable behavior changed. -/
theorem c7_counterexample :
    (fourColorRun.map fun pq => pq.2.get_palette_index whiteC)
        = some (some (some 1)) ∧
    (((addAll (constructQuantizer 1 8).1 (OctreeQuantizer.init 8) fourColors).bind
        (fun q => q.make_palette (constructQuantizer 1 8).1 2)).map
      fun pq => pq.2.get_palette_index whiteC) = some (some (some 0)) := by
  constructor
  · rw [step_fourColorRun]
    simp only [Option.map_some']
    rw [step_lk4_white]
  · show ((addAll 1 (OctreeQuantizer.init 8) fourColors).bind
        (fun q => q.make_palette 1 2)).map _ = _
    rw [step_buildR]
    show (R4.make_palette 1 2).map _ = _
    rw [step_mpR]
    simp only [Option.map_some']
    rw [step_lkR_white]

/-! ### Claim C9 counterexample: lookup index vs. building-time leaf -/

/-- C9 counterexample: add `(0,0,0)` then `(255,255,255)`, call
`make_palette(1)`.  The palette is `[(0,0,0)]`; `get_palette_index` of
`(255,255,255)` — a color that was added — returns index 0, but the leaf
that color is routed into (arena id 10) has average color `(255,255,255)`:
the returned index's palette color is not that leaf's average, and the leaf
never received a palette index of its own. -/
theorem c9_counterexample :
    ((buildQ [blackC, whiteC]).bind (fun q => q.make_palette 8 1)).map
        (fun pq =>
          (pq.1, pq.2.get_palette_index whiteC, routeNode pq.2 whiteC,
           (routeNode pq.2 whiteC).bind
             (fun L => (pq.2.nodes[L]?).bind OctreeNode.get_color))) =
      some ([Cl 0 0 0], some (some 0), some 10, some (Cl 255 255 255)) := by
  have hrun : (buildQ [blackC, whiteC]).bind (fun q => q.make_palette 8 1)
      = some ([Cl 0 0 0], MPWpost) := by
    rw [step_buildQ_bw]
    show W2.make_palette 8 1 = _
    exact step_mpW
  rw [hrun]
  simp only [Option.map_some']
  rw [step_lkW_white, step_routeW_white]
  rfl

/-! ### Helper facts about the branch index -/

/-- The branch index is one of 0..7. -/
theorem gci_le_seven (c : Color) (level : Nat) :
    OctreeNode.get_color_index_for_level c level ≤ 7 := by
  unfold OctreeNode.get_color_index_for_level
  simp only []
  split <;> split <;> split <;> decide

/-- The branch index extracts bit `7 - level` of each channel (red into bit
position 2, green into 1, blue into 0), for `level ≤ 7`. -/
theorem gci_testBit (c : Color) (level : Nat) (h : level ≤ 7) :
    OctreeNode.get_color_index_for_level c level =
      4 * (c.red.testBit (7 - level)).toNat + 2 * (c.green.testBit (7 - level)).toNat +
        (c.blue.testBit (7 - level)).toNat := by
  have hmask : (0x80 >>> level) = 2 ^ (7 - level) := by
    rw [Nat.shiftRight_eq_div_pow]
    show 2 ^ 7 / 2 ^ level = 2 ^ (7 - level)
    exact Nat.pow_div h (by decide)
  have hbit : ∀ x k : Nat, (x &&& 2 ^ k ≠ 0) ↔ x.testBit k = true := by
    intro x k
    rw [Nat.and_two_pow]
    cases hx : x.testBit k <;> simp
  unfold OctreeNode.get_color_index_for_level
  rw [hmask]
  rcases hr : c.red.testBit (7 - level) <;> rcases hg : c.green.testBit (7 - level) <;>
    rcases hb : c.blue.testBit (7 - level) <;>
      simp [hbit, hr, hg, hb]

/-! ### Claim C8: the lookup step behavior -/

/-- C8: one step of `get_palette_index` on node `nid` holding `n`: the branch
index is bit `7 - level` of red shifted to position 2, of green to position
1, of blue to position 0; a leaf returns its `palette_index`; a non-leaf
recurses at `level + 1` into the branch child when that slot is occupied, and
otherwise into the first existing child in slot order 0..7. -/
theorem c8_lookup_step (q : OctreeQuantizer) (fuel nid : Nat) (c : Color)
    (level : Nat) (n : OctreeNode) (hn : q.nodes[nid]? = some n)
    (hlevel : level ≤ 7) :
    (OctreeNode.get_color_index_for_level c level =
        4 * (c.red.testBit (7 - level)).toNat +
          2 * (c.green.testBit (7 - level)).toNat +
          (c.blue.testBit (7 - level)).toNat) ∧
    (n.is_leaf = true →
      getPaletteIndexAux q (fuel + 1) nid c level = some (some n.palette_index)) ∧
    (∀ cid, n.is_leaf = false →
      n.children[OctreeNode.get_color_index_for_level c level]? = some (some cid) →
      getPaletteIndexAux q (fuel + 1) nid c level =
        getPaletteIndexAux q fuel cid c (level + 1)) ∧
    (∀ cid, n.is_leaf = false →
      n.children[OctreeNode.get_color_index_for_level c level]? = some none →
      firstChild n.children = some cid →
      getPaletteIndexAux q (fuel + 1) nid c level =
        getPaletteIndexAux q fuel cid c (level + 1)) := by
  refine ⟨gci_testBit c level hlevel, ?_, ?_, ?_⟩
  · intro hleaf
    simp [getPaletteIndexAux, hn, hleaf]
  · intro cid hleaf hchild
    simp [getPaletteIndexAux, hn, hleaf, hchild]
  · intro cid hleaf hchild hfirst
    simp [getPaletteIndexAux, hn, hleaf, hchild, hfirst]

/-- Witness for `c8_lookup_step` at the root of `Q1` and color `(0,0,0)`. -/
theorem c8_lookup_step_witness :
    (OctreeNode.get_color_index_for_level blackC 0 =
        4 * (blackC.red.testBit 7).toNat + 2 * (blackC.green.testBit 7).toNat +
          (blackC.blue.testBit 7).toNat) ∧
    ((N 0 0 0 0 0 [some 1, none, none, none, none, none, none, none]).is_leaf = true →
      getPaletteIndexAux Q1 (3 + 1) 0 blackC 0 =
        some (some (N 0 0 0 0 0 [some 1, none, none, none, none, none, none, none]).palette_index)) ∧
    (∀ cid, (N 0 0 0 0 0 [some 1, none, none, none, none, none, none, none]).is_leaf = false →
      (N 0 0 0 0 0 [some 1, none, none, none, none, none, none, none]).children[OctreeNode.get_color_index_for_level blackC 0]? = some (some cid) →
      getPaletteIndexAux Q1 (3 + 1) 0 blackC 0 = getPaletteIndexAux Q1 3 cid blackC (0 + 1)) ∧
    (∀ cid, (N 0 0 0 0 0 [some 1, none, none, none, none, none, none, none]).is_leaf = false →
      (N 0 0 0 0 0 [some 1, none, none, none, none, none, none, none]).children[OctreeNode.get_color_index_for_level blackC 0]? = some none →
      firstChild (N 0 0 0 0 0 [some 1, none, none, none, none, none, none, none]).children = some cid →
      getPaletteIndexAux Q1 (3 + 1) 0 blackC 0 = getPaletteIndexAux Q1 3 cid blackC (0 + 1)) :=
  c8_lookup_step Q1 3 0 blackC 0
    (N 0 0 0 0 0 [some 1, none, none, none, none, none, none, none]) rfl (by decide)

/-! ### Claim C4 amended: an empty-tree lookup returns the value None -/

/-- C4 amended: on a quantizer constructed with any `max_depth` and never
given a color, `get_palette_index` returns the Python value `None`
(`some none`) for every color — it neither raises nor returns an index. -/
theorem c4_amended (md : Nat) (q : OctreeQuantizer) (c : Color)
    (h : OctreeQuantizer.init md = some q) :
    q.get_palette_index c = some none := by
  have hq : q.nodes = [newOctreeNode] ∧ q.root = 0 := by
    unfold OctreeQuantizer.init createNode at h
    by_cases h2 : 0 < md - 1
    · simp only [h2, if_true] at h
      rw [List.getElem?_replicate] at h
      simp only [show 0 < md by omega, if_true] at h
      cases h
      exact ⟨rfl, rfl⟩
    · simp only [h2, if_false] at h
      cases h
      exact ⟨rfl, rfl⟩
  obtain ⟨ns, ls, rt⟩ := q
  obtain ⟨hnodes, hroot⟩ := hq
  dsimp only at hnodes hroot
  subst hnodes hroot
  by_cases h1 : c.red &&& 128 ≠ 0 <;> by_cases h2 : c.green &&& 128 ≠ 0 <;>
    by_cases h3 : c.blue &&& 128 ≠ 0 <;>
      simp [OctreeQuantizer.get_palette_index, getPaletteIndexAux,
        OctreeNode.get_color_index_for_level, OctreeNode.is_leaf, newOctreeNode,
        firstChild, h1, h2, h3, List.replicate]

/-- Witness for `c4_amended` at `max_depth = 8` and color `(0,0,0)`. -/
theorem c4_amended_witness : QI.get_palette_index blackC = some none :=
  c4_amended 8 QI blackC step_init

/-! ### Claim C6 amended: registration happens under key `level` -/

/-- C6 amended: when `add_color` at `level` creates the missing child (which
lives at depth `level + 1`), the node constructor registers the new id under
registry key `level` — the child's depth *minus one* — and only when
`level < MAX_DEPTH - 1`; otherwise the registry is untouched.  Hence registry
key `d` holds the root (`d = 0`) plus the nodes of depth `d + 1`, in creation
order, and nodes of depth `MAX_DEPTH` are never registered. -/
theorem c6_amended (MD level : Nat) (q q' : OctreeQuantizer) (nid : Nat)
    (h : createNode MD level q = some (q', nid)) :
    nid = q.nodes.length ∧
    q'.nodes = q.nodes ++ [newOctreeNode] ∧
    (level < MD - 1 → ∃ lst, q.levels[level]? = some lst ∧
        q'.levels = q.levels.set level (lst ++ [nid])) ∧
    (¬ level < MD - 1 → q'.levels = q.levels) := by
  unfold createNode at h
  by_cases hl : level < MD - 1
  · simp only [hl, if_true] at h
    cases hlv : q.levels[level]? with
    | none => rw [hlv] at h; cases h
    | some lst =>
      rw [hlv] at h
      cases h
      exact ⟨rfl, rfl, fun _ => ⟨lst, rfl, rfl⟩, fun hc => absurd hl hc⟩
  · simp only [hl, if_false] at h
    cases h
    exact ⟨rfl, rfl, fun hc => absurd hc hl, fun _ => rfl⟩

/-- Witness for `c6_amended`: creating the root with `max_depth = 8` on the
empty state registers id 0 under key 0. -/
theorem c6_amended_witness :
    (0 : Nat) = (⟨[], List.replicate 8 [], 0⟩ : OctreeQuantizer).nodes.length ∧
    QI.nodes = (⟨[], List.replicate 8 [], 0⟩ : OctreeQuantizer).nodes ++ [newOctreeNode] ∧
    ((0 : Nat) < 8 - 1 → ∃ lst,
        (⟨[], List.replicate 8 [], 0⟩ : OctreeQuantizer).levels[0]? = some lst ∧
        QI.levels = (⟨[], List.replicate 8 [], 0⟩ : OctreeQuantizer).levels.set 0 (lst ++ [0])) ∧
    (¬ (0 : Nat) < 8 - 1 →
        QI.levels = (⟨[], List.replicate 8 [], 0⟩ : OctreeQuantizer).levels) :=
  c6_amended 8 0 ⟨[], List.replicate 8 [], 0⟩ QI 0 (by rfl)

/-! ### Claim C7 amended: the depth limit is class-level state -/

/-- C7 amended: `MAX_DEPTH` is a class attribute: constructing a quantizer
overwrites it with the new `max_depth` regardless of the previous class value
`cls`, the constructed state itself depends only on `max_depth`, and the
subsequent `add_color`/`make_palette` of *every* instance (also previously
constructed ones) read the overwritten class value — so a second construction
with a different `max_depth` changes a prior instance's behavior, as
exhibited by the counterexample. -/
theorem c7_amended (max_depth cls cls' : Nat) (q : OctreeQuantizer) (c : Color)
    (t : Int) :
    (constructQuantizer max_depth cls).1 = max_depth ∧
    (constructQuantizer max_depth cls).2 = (constructQuantizer max_depth cls').2 ∧
    (constructQuantizer max_depth cls).2 = OctreeQuantizer.init max_depth ∧
    OctreeQuantizer.add_color (constructQuantizer max_depth cls).1 q c =
      OctreeQuantizer.add_color max_depth q c ∧
    OctreeQuantizer.make_palette (constructQuantizer max_depth cls).1 q t =
      OctreeQuantizer.make_palette max_depth q t :=
  ⟨rfl, rfl, rfl, rfl, rfl⟩

/-! ### Structural invariants of reachable quantizer states -/

/-- Child-slot well-formedness: every node's `children` has exactly 8 slots
and occupied slots point strictly forward and in range. -/
def ChildrenOk (q : OctreeQuantizer) : Prop :=
  ∀ (i : Nat) (n : OctreeNode), q.nodes[i]? = some n → n.children.length = 8 ∧
    ∀ (s j : Nat), n.children[s]? = some (some j) → i < j ∧ j < q.nodes.length

/-- Registry well-formedness: every registered id is a valid arena id. -/
def LevelsOk (q : OctreeQuantizer) : Prop :=
  ∀ (l : Nat) (lst : List Nat), q.levels[l]? = some lst →
    ∀ j ∈ lst, j < q.nodes.length

/-- No id occurs in two occupied child slots (each node has one parent). -/
def Inj (q : OctreeQuantizer) : Prop :=
  ∀ (i₁ s₁ : Nat) (n₁ : OctreeNode) (i₂ s₂ : Nat) (n₂ : OctreeNode) (j : Nat), q.nodes[i₁]? = some n₁ → q.nodes[i₂]? = some n₂ →
    n₁.children[s₁]? = some (some j) → n₂.children[s₂]? = some (some j) →
    i₁ = i₂ ∧ s₁ = s₂

/-- Every node is a leaf or has an occupied child slot (holds once at least
one color has been added; the freshly constructed root violates it). -/
def LeafOrChild (q : OctreeQuantizer) : Prop :=
  ∀ (i : Nat) (n : OctreeNode), q.nodes[i]? = some n →
    0 < n.pixel_count ∨ ∃ (s j : Nat), n.children[s]? = some (some j)

/-- All palette indices are zero (holds before `make_palette` runs). -/
def PaletteZero (q : OctreeQuantizer) : Prop :=
  ∀ (i : Nat) (n : OctreeNode), q.nodes[i]? = some n → n.palette_index = 0

/-- Bookkeeping well-formedness for the default-depth pipeline. -/
structure WF (q : OctreeQuantizer) : Prop where
  rootEq : q.root = 0
  nodesNE : 0 < q.nodes.length
  levelsLen : q.levels.length = 8
  childrenOk : ChildrenOk q
  levelsOk : LevelsOk q
  inj : Inj q

/-- Monotone evolution of one node under ingestion: pixel count never
decreases, the slot array keeps its length, occupied slots are write-once,
and the palette index is untouched. -/
def NodeMono (n n' : OctreeNode) : Prop :=
  n.pixel_count ≤ n'.pixel_count ∧ n.children.length = n'.children.length ∧
  n'.palette_index = n.palette_index ∧
  ∀ (s j : Nat), n.children[s]? = some (some j) → n'.children[s]? = some (some j)

/-- Monotone evolution of states: the root is stable, ids persist and each
surviving node evolves monotonically. -/
def Mono (q q' : OctreeQuantizer) : Prop :=
  q'.root = q.root ∧ q.nodes.length ≤ q'.nodes.length ∧
  ∀ (i : Nat) (n : OctreeNode), q.nodes[i]? = some n →
    ∃ n', q'.nodes[i]? = some n' ∧ NodeMono n n'

theorem nodeMono_refl (n : OctreeNode) : NodeMono n n :=
  ⟨Nat.le_refl _, rfl, rfl, fun _ _ h => h⟩

theorem nodeMono_trans {a b c : OctreeNode} (h1 : NodeMono a b) (h2 : NodeMono b c) :
    NodeMono a c :=
  ⟨Nat.le_trans h1.1 h2.1, h1.2.1.trans h2.2.1, h2.2.2.1.trans h1.2.2.1,
    fun s j hs => h2.2.2.2 s j (h1.2.2.2 s j hs)⟩

theorem mono_refl (q : OctreeQuantizer) : Mono q q :=
  ⟨rfl, Nat.le_refl _, fun _ n h => ⟨n, h, nodeMono_refl n⟩⟩

theorem mono_trans {q q' q'' : OctreeQuantizer} (h1 : Mono q q') (h2 : Mono q' q'') :
    Mono q q'' := by
  refine ⟨h2.1.trans h1.1, Nat.le_trans h1.2.1 h2.2.1, fun i n hn => ?_⟩
  obtain ⟨n', hn', hm⟩ := h1.2.2 i n hn
  obtain ⟨n'', hn'', hm'⟩ := h2.2.2 i n' hn'
  exact ⟨n'', hn'', nodeMono_trans hm hm'⟩

/-- Specification of `createNode` when its registry access cannot fail. -/
theorem createNode_parts (MD level : Nat) (q : OctreeQuantizer)
    (hlev : level < MD - 1 → level < q.levels.length) :
    ∃ q1, createNode MD level q = some (q1, q.nodes.length) ∧
      q1.nodes = q.nodes ++ [newOctreeNode] ∧
      q1.root = q.root ∧
      q1.levels.length = q.levels.length ∧
      (LevelsOk q → ∀ (l : Nat) (lst : List Nat), q1.levels[l]? = some lst →
        ∀ j ∈ lst, j < q.nodes.length + 1) := by
  by_cases hl : level < MD - 1
  · have hlen : level < q.levels.length := hlev hl
    obtain ⟨lst, hlst⟩ : ∃ lst, q.levels[level]? = some lst :=
      ⟨_, List.getElem?_eq_getElem hlen⟩
    refine ⟨⟨q.nodes ++ [newOctreeNode],
        q.levels.set level (lst ++ [q.nodes.length]), q.root⟩, ?_, rfl, rfl, by simp, ?_⟩
    · simp only [createNode, if_pos hl, hlst]
    · intro hOk l lst' hl' j hj
      dsimp only at hl'
      by_cases hll : l = level
      · subst hll
        rw [List.getElem?_set_self hlen] at hl'
        cases hl'
        rcases List.mem_append.mp hj with h | h
        · exact Nat.lt_succ_of_lt (hOk l lst hlst j h)
        · rcases List.mem_singleton.mp h with rfl
          exact Nat.lt_succ_self _
      · rw [List.getElem?_set_ne (fun hh => hll hh.symm)] at hl'
        exact Nat.lt_succ_of_lt (hOk l lst' hl' j hj)
  · refine ⟨⟨q.nodes ++ [newOctreeNode], q.levels, q.root⟩, ?_, rfl, rfl, rfl, ?_⟩
    · simp only [createNode, if_neg hl]
    · intro hOk l lst' hl' j hj
      exact Nat.lt_succ_of_lt (hOk l lst' hl' j hj)

/-- The conclusion bundle of `addColorAux_spec`: bookkeeping is preserved,
old nodes evolve monotonically, nodes created by the call are zero-palette
leaves-or-parents, and the entry node `nid` ends as a leaf or with a child. -/
def AddSpec (q : OctreeQuantizer) (nid : Nat) (deep : Prop) (q' : OctreeQuantizer) : Prop :=
  q'.root = q.root ∧
  q'.levels.length = q.levels.length ∧
  q.nodes.length ≤ q'.nodes.length ∧
  ChildrenOk q' ∧ LevelsOk q' ∧ Inj q' ∧
  (∀ (i : Nat) (n : OctreeNode), q.nodes[i]? = some n →
    ∃ n', q'.nodes[i]? = some n' ∧ NodeMono n n') ∧
  (∀ (i : Nat) (n' : OctreeNode), q'.nodes[i]? = some n' → q.nodes.length ≤ i →
    n'.palette_index = 0 ∧
    (0 < n'.pixel_count ∨ ∃ (s j : Nat), n'.children[s]? = some (some j))) ∧
  (∀ n' : OctreeNode, q'.nodes[nid]? = some n' →
    (deep → 0 < n'.pixel_count) ∧
    (¬ deep → ∃ (s j : Nat), n'.children[s]? = some (some j)))

/-- Element access into the arena after appending a fresh node and relinking
the parent `nid`. -/
theorem arena2_getElem (nodes : List OctreeNode) (nid : Nat) (n2 : OctreeNode)
    (hnid : nid < nodes.length) :
    (((nodes ++ [newOctreeNode]).set nid n2)[nid]? = some n2) ∧
    (((nodes ++ [newOctreeNode]).set nid n2)[nodes.length]? = some newOctreeNode) ∧
    (∀ i : Nat, i ≠ nid → ((nodes ++ [newOctreeNode]).set nid n2)[i]? =
      (nodes ++ [newOctreeNode])[i]?) ∧
    ((nodes ++ [newOctreeNode]).set nid n2).length = nodes.length + 1 := by
  refine ⟨?_, ?_, ?_, by simp⟩
  · exact List.getElem?_set_self (by simp; omega)
  · rw [List.getElem?_set_ne (by omega)]
    exact List.getElem?_concat_length nodes newOctreeNode
  · intro i hi
    exact List.getElem?_set_ne (fun hh => hi hh.symm)

/-- Abbreviation for the node state after absorbing one color (the
`level ≥ MAX_DEPTH` branch of `add_color`). -/
def absorbNode (n : OctreeNode) (c : Color) : OctreeNode :=
  { n with
    color := { n.color with
      red := n.color.red + c.red
      green := n.color.green + c.green
      blue := n.color.blue + c.blue }
    pixel_count := n.pixel_count + 1 }

/-- Abbreviation for the parent node after linking a fresh child id into an
empty slot. -/
def linkNode (n : OctreeNode) (idx cid : Nat) : OctreeNode :=
  { n with children := n.children.set idx (some cid) }

/-- The absorb branch of `add_color` (at `level ≥ MAX_DEPTH`). -/
theorem absorb_parts (MD fuel : Nat) (q : OctreeQuantizer) (nid : Nat) (c : Color)
    (level : Nat) (hML : MD ≤ level) (n : OctreeNode) (hn : q.nodes[nid]? = some n)
    (hChild : ChildrenOk q) (hLev : LevelsOk q) (hInj : Inj q) :
    ∃ q', addColorAux MD fuel q nid c level = some q' ∧
      AddSpec q nid (MD ≤ level) q' := by
  have hnidlt : nid < q.nodes.length := (List.getElem?_eq_some_iff.mp hn).1
  have heq : addColorAux MD fuel q nid c level =
      some { q with nodes := q.nodes.set nid (absorbNode n c) } := by
    cases fuel <;> simp only [addColorAux, if_pos hML, hn, absorbNode]
  have key : ∀ (i : Nat) (m : OctreeNode),
      (q.nodes.set nid (absorbNode n c))[i]? = some m →
      ∃ m₀, q.nodes[i]? = some m₀ ∧ m₀.children = m.children ∧
        m₀.palette_index = m.palette_index ∧ m₀.pixel_count ≤ m.pixel_count := by
    intro i m hm
    by_cases hi : i = nid
    · subst hi
      rw [List.getElem?_set_self hnidlt] at hm
      cases hm
      exact ⟨n, hn, rfl, rfl, Nat.le_succ _⟩
    · rw [List.getElem?_set_ne (fun hh => hi hh.symm)] at hm
      exact ⟨m, hm, rfl, rfl, Nat.le_refl _⟩
  refine ⟨_, heq, rfl, rfl, by simp, ?_, ?_, ?_, ?_, ?_, ?_⟩
  · -- ChildrenOk
    intro i m hm
    obtain ⟨m₀, hm₀, hch, _, _⟩ := key i m hm
    have := hChild i m₀ hm₀
    exact ⟨hch ▸ this.1, fun s j hs => by
      have := this.2 s j (hch ▸ hs)
      simpa using this⟩
  · -- LevelsOk
    intro l lst hl j hj
    simpa using hLev l lst hl j hj
  · -- Inj
    intro i₁ s₁ n₁ i₂ s₂ n₂ j h₁ h₂ hc₁ hc₂
    obtain ⟨m₁, hm₁, hch₁, _, _⟩ := key i₁ n₁ h₁
    obtain ⟨m₂, hm₂, hch₂, _, _⟩ := key i₂ n₂ h₂
    exact hInj i₁ s₁ m₁ i₂ s₂ m₂ j hm₁ hm₂ (hch₁ ▸ hc₁) (hch₂ ▸ hc₂)
  · -- Mono
    intro i m hm
    by_cases hi : i = nid
    · subst hi
      rw [hn] at hm
      cases hm
      exact ⟨absorbNode n c, List.getElem?_set_self hnidlt,
        Nat.le_succ _, rfl, rfl, fun _ _ h => h⟩
    · exact ⟨m, (List.getElem?_set_ne (fun hh => hi hh.symm)).trans hm, nodeMono_refl m⟩
  · -- no new nodes
    intro i n' hn' hge
    rw [List.getElem?_eq_none (by simpa using hge)] at hn'
    cases hn'
  · -- entry node is a leaf afterwards
    intro n' hn'
    rw [List.getElem?_set_self hnidlt] at hn'
    cases hn'
    exact ⟨fun _ => Nat.succ_pos _, fun hnd => absurd hML hnd⟩

/-- The fresh node has no occupied child slot. -/
theorem newOctreeNode_no_child (s j : Nat) :
    newOctreeNode.children[s]? = some (some j) → False := by
  intro h
  rw [show newOctreeNode.children = List.replicate 8 (none : Option Nat) from rfl,
    List.getElem?_replicate] at h
  by_cases hs : s < 8 <;> simp [hs] at h

/-- Properties of the arena after appending a fresh node and linking it into
an empty slot `idx` of node `nid`. -/
theorem link_parts (q q2 : OctreeQuantizer) (nid idx : Nat) (n : OctreeNode)
    (hn : q.nodes[nid]? = some n) (hidx : idx ≤ 7)
    (hslot : n.children[idx]? = some none)
    (hChild : ChildrenOk q) (hInj : Inj q)
    (hq2 : q2.nodes = (q.nodes ++ [newOctreeNode]).set nid
      (linkNode n idx q.nodes.length)) :
    ChildrenOk q2 ∧ Inj q2 ∧ q2.nodes.length = q.nodes.length + 1 ∧
    q2.nodes[nid]? = some (linkNode n idx q.nodes.length) ∧
    q2.nodes[q.nodes.length]? = some newOctreeNode ∧
    (∀ (i : Nat) (m : OctreeNode), q.nodes[i]? = some m →
      ∃ m', q2.nodes[i]? = some m' ∧ NodeMono m m') := by
  have hnid : nid < q.nodes.length := (List.getElem?_eq_some_iff.mp hn).1
  have hchlen : n.children.length = 8 := (hChild nid n hn).1
  obtain ⟨hget_nid, hget_fresh, hget_ne, hlen⟩ :=
    arena2_getElem q.nodes nid (linkNode n idx q.nodes.length) hnid
  have hlinklen : (linkNode n idx q.nodes.length).children.length = 8 := by
    simp [linkNode, hchlen]
  have hlinkslot : ∀ (s j : Nat),
      (linkNode n idx q.nodes.length).children[s]? = some (some j) →
      (s = idx ∧ j = q.nodes.length) ∨ n.children[s]? = some (some j) := by
    intro s j hs
    rw [show (linkNode n idx q.nodes.length).children =
      n.children.set idx (some q.nodes.length) from rfl] at hs
    by_cases hsi : s = idx
    · rw [hsi, List.getElem?_set_self (by omega)] at hs
      cases hs
      exact Or.inl ⟨hsi, rfl⟩
    · rw [List.getElem?_set_ne (fun hh => hsi hh.symm)] at hs
      exact Or.inr hs
  have hlinkidx : (linkNode n idx q.nodes.length).children[idx]? =
      some (some q.nodes.length) := by
    rw [show (linkNode n idx q.nodes.length).children =
      n.children.set idx (some q.nodes.length) from rfl]
    exact List.getElem?_set_self (by omega)
  -- classification of q2's occupied pointers
  have key : ∀ (i s : Nat) (m : OctreeNode) (j : Nat), q2.nodes[i]? = some m →
      m.children[s]? = some (some j) →
      (i = nid ∧ s = idx ∧ j = q.nodes.length) ∨
      (∃ m₀, q.nodes[i]? = some m₀ ∧ m₀.children[s]? = some (some j) ∧
        j < q.nodes.length ∧ i < j) := by
    intro i s m j hi hs
    rw [hq2] at hi
    by_cases hii : i = nid
    · subst hii
      rw [hget_nid] at hi
      cases hi
      rcases hlinkslot s j hs with ⟨hsi, hji⟩ | hold
      · exact Or.inl ⟨rfl, hsi, hji⟩
      · have := (hChild i n hn).2 s j hold
        exact Or.inr ⟨n, hn, hold, this.2, this.1⟩
    · rw [hget_ne i hii] at hi
      by_cases hif : i = q.nodes.length
      · subst hif
        rw [List.getElem?_concat_length] at hi
        cases hi
        exact absurd hs (fun hh => newOctreeNode_no_child s j hh)
      · have hilt : i < q.nodes.length := by
          rcases Nat.lt_or_ge i q.nodes.length with h | h
          · exact h
          · rw [List.getElem?_eq_none (by simp; omega)] at hi
            cases hi
        rw [List.getElem?_append_left hilt] at hi
        have := (hChild i m hi).2 s j hs
        exact Or.inr ⟨m, hi, hs, this.2, this.1⟩
  refine ⟨?_, ?_, by rw [hq2]; exact hlen, by rw [hq2]; exact hget_nid,
    by rw [hq2]; exact hget_fresh, ?_⟩
  · -- ChildrenOk q2
    intro i m hi
    constructor
    · rw [hq2] at hi
      by_cases hii : i = nid
      · subst hii; rw [hget_nid] at hi; cases hi; exact hlinklen
      · rw [hget_ne i hii] at hi
        by_cases hif : i = q.nodes.length
        · subst hif; rw [List.getElem?_concat_length] at hi; cases hi; rfl
        · have hilt : i < q.nodes.length := by
            rcases Nat.lt_or_ge i q.nodes.length with h | h
            · exact h
            · rw [List.getElem?_eq_none (by simp; omega)] at hi; cases hi
          rw [List.getElem?_append_left hilt] at hi
          exact (hChild i m hi).1
    · intro s j hs
      rcases key i s m j hi hs with ⟨hii, _, hji⟩ | ⟨m₀, hm₀, _, hjlt, hij⟩
      · subst hii hji
        have : q2.nodes.length = q.nodes.length + 1 := by rw [hq2]; exact hlen
        omega
      · have : q2.nodes.length = q.nodes.length + 1 := by rw [hq2]; exact hlen
        omega
  · -- Inj q2
    intro i₁ s₁ n₁ i₂ s₂ n₂ j h₁ h₂ hc₁ hc₂
    rcases key i₁ s₁ n₁ j h₁ hc₁ with ⟨hi₁, hs₁, hj₁⟩ | ⟨m₁, hm₁, hcc₁, hjlt₁, _⟩ <;>
      rcases key i₂ s₂ n₂ j h₂ hc₂ with ⟨hi₂, hs₂, hj₂⟩ | ⟨m₂, hm₂, hcc₂, hjlt₂, _⟩
    · exact ⟨hi₁.trans hi₂.symm, hs₁.trans hs₂.symm⟩
    · omega
    · omega
    · exact hInj i₁ s₁ m₁ i₂ s₂ m₂ j hm₁ hm₂ hcc₁ hcc₂
  · -- Mono
    intro i m hi
    by_cases hii : i = nid
    · subst hii
      rw [hn] at hi
      cases hi
      refine ⟨linkNode n idx q.nodes.length, by rw [hq2]; exact hget_nid,
        Nat.le_refl _, by simp [linkNode], rfl, ?_⟩
      intro s j hs
      rw [show (linkNode n idx q.nodes.length).children =
        n.children.set idx (some q.nodes.length) from rfl]
      by_cases hsi : s = idx
      · rw [hsi, hslot] at hs
        cases hs
      · rw [List.getElem?_set_ne (fun hh => hsi hh.symm)]
        exact hs
    · have hilt : i < q.nodes.length := (List.getElem?_eq_some_iff.mp hi).1
      refine ⟨m, ?_, nodeMono_refl m⟩
      rw [hq2, hget_ne i hii, List.getElem?_append_left hilt]
      exact hi

/-- Master specification of `add_color`'s recursion: with enough fuel and a
well-formed state it succeeds and establishes `AddSpec`. -/
theorem addColorAux_spec (MD : Nat) :
    ∀ (fuel level : Nat) (q : OctreeQuantizer) (nid : Nat) (c : Color),
      MD - level ≤ fuel → nid < q.nodes.length →
      ChildrenOk q → LevelsOk q → Inj q →
      (∀ l : Nat, l < MD - 1 → l < q.levels.length) →
      ∃ q', addColorAux MD fuel q nid c level = some q' ∧
        AddSpec q nid (MD ≤ level) q' := by
  intro fuel
  induction fuel with
  | zero =>
    intro level q nid c hfuel hnid hChild hLev hInj hKey
    obtain ⟨n, hn⟩ : ∃ n, q.nodes[nid]? = some n := ⟨_, List.getElem?_eq_getElem hnid⟩
    exact absorb_parts MD 0 q nid c level (by omega) n hn hChild hLev hInj
  | succ fuel ih =>
    intro level q nid c hfuel hnid hChild hLev hInj hKey
    obtain ⟨n, hn⟩ : ∃ n, q.nodes[nid]? = some n := ⟨_, List.getElem?_eq_getElem hnid⟩
    by_cases hML : MD ≤ level
    · exact absorb_parts MD (fuel + 1) q nid c level hML n hn hChild hLev hInj
    · have hidx7 : OctreeNode.get_color_index_for_level c level ≤ 7 :=
        gci_le_seven c level
      have hchlen : n.children.length = 8 := (hChild nid n hn).1
      obtain ⟨slot, hslot⟩ : ∃ slot,
          n.children[OctreeNode.get_color_index_for_level c level]? = some slot :=
        ⟨_, List.getElem?_eq_getElem (by omega)⟩
      cases slot with
      | some cid =>
        have hcid := (hChild nid n hn).2 _ cid hslot
        obtain ⟨q', heq, hspec⟩ :=
          ih (level + 1) q cid c (by omega) hcid.2 hChild hLev hInj hKey
        refine ⟨q', ?_, ?_⟩
        · simpa only [addColorAux, if_neg hML, hn, hslot] using heq
        · obtain ⟨h1, h2, h3, h4, h5, h6, h7, h8, h9⟩ := hspec
          refine ⟨h1, h2, h3, h4, h5, h6, h7, h8, ?_⟩
          intro n' hn'
          obtain ⟨n'', hn'', hm⟩ := h7 nid n hn
          rw [hn''] at hn'
          cases hn'
          exact ⟨fun hd => absurd hd hML,
            fun _ => ⟨_, cid, hm.2.2.2 _ cid hslot⟩⟩
      | none =>
        obtain ⟨q1, hcreate, hq1nodes, hq1root, hq1len, hq1lev⟩ :=
          createNode_parts MD level q (hKey level)
        have hq1nid : q1.nodes[nid]? = some n := by
          rw [hq1nodes, List.getElem?_append_left hnid]
          exact hn
        obtain ⟨hCh2, hInj2, hlen2, hnid2, hfresh2, hMono2⟩ :=
          link_parts q
            { q1 with nodes := q1.nodes.set nid (linkNode n (OctreeNode.get_color_index_for_level c level) q.nodes.length) }
            nid (OctreeNode.get_color_index_for_level c level) n hn hidx7 hslot
            hChild hInj (by rw [hq1nodes])
        set q2 : OctreeQuantizer :=
          { q1 with nodes := q1.nodes.set nid (linkNode n (OctreeNode.get_color_index_for_level c level) q.nodes.length) } with hq2def
        have hq2levels : q2.levels = q1.levels := rfl
        have hLev2 : LevelsOk q2 := by
          intro l lst hl j hj
          rw [hlen2]
          exact hq1lev hLev l lst (hq2levels ▸ hl) j hj
        have hKey2 : ∀ l : Nat, l < MD - 1 → l < q2.levels.length := by
          intro l hl
          rw [hq2levels, hq1len]
          exact hKey l hl
        have hfreshlt : q.nodes.length < q2.nodes.length := by omega
        obtain ⟨q', heq', hspec2⟩ :=
          ih (level + 1) q2 q.nodes.length c (by omega) hfreshlt hCh2 hLev2 hInj2 hKey2
        refine ⟨q', ?_, ?_⟩
        · simpa only [addColorAux, if_neg hML, hn, hslot, hcreate, hq1nid, linkNode]
            using heq'
        · obtain ⟨h1, h2, h3, h4, h5, h6, h7, h8, h9⟩ := hspec2
          have hq2root : q2.root = q.root := hq1root
          have hq2levlen : q2.levels.length = q.levels.length := by
            rw [hq2levels, hq1len]
          refine ⟨h1.trans hq2root, h2.trans hq2levlen, by omega, h4, h5, h6,
            ?_, ?_, ?_⟩
          · intro i m hm
            obtain ⟨m', hm', hmm⟩ := hMono2 i m hm
            obtain ⟨m'', hm'', hmm'⟩ := h7 i m' hm'
            exact ⟨m'', hm'', nodeMono_trans hmm hmm'⟩
          · intro i n' hn' hge
            by_cases hif : i = q.nodes.length
            · subst hif
              constructor
              · obtain ⟨m'', hm'', hmm'⟩ := h7 _ newOctreeNode hfresh2
                rw [hm''] at hn'
                cases hn'
                exact hmm'.2.2.1
              · by_cases hd : MD ≤ level + 1
                · exact Or.inl ((h9 n' hn').1 hd)
                · exact Or.inr ((h9 n' hn').2 hd)
            · exact h8 i n' hn' (by omega)
          · intro n' hn'
            obtain ⟨m'', hm'', hmm'⟩ := h7 nid _ hnid2
            rw [hm''] at hn'
            cases hn'
            refine ⟨fun hd => absurd hd hML, fun _ =>
              ⟨OctreeNode.get_color_index_for_level c level,
                q.nodes.length, hmm'.2.2.2 _ _ ?_⟩⟩
            rw [show (linkNode n (OctreeNode.get_color_index_for_level c level)
              q.nodes.length).children =
              n.children.set (OctreeNode.get_color_index_for_level c level)
                (some q.nodes.length) from rfl]
            exact List.getElem?_set_self (by omega)

/-- A slot list with only `none` entries never yields an occupied slot. -/
theorem no_child_of_all_none (ch : List (Option Nat))
    (hch : ∀ x ∈ ch, x = none) (s j : Nat) :
    ch[s]? = some (some j) → False := by
  intro h
  obtain ⟨hlt, hval⟩ := List.getElem?_eq_some_iff.mp h
  have := hch _ (List.getElem_mem hlt)
  rw [this] at hval
  cases hval

/-- The freshly constructed quantizer state is well-formed. -/
theorem QI_wf : WF QI := by
  refine ⟨rfl, by decide, by decide, ?_, ?_, ?_⟩
  · intro i n h
    have hi : i < 1 := by
      have := (List.getElem?_eq_some_iff.mp h).1
      simpa [QI] using this
    interval_cases i
    cases h
    refine ⟨by decide, fun s j hs => ?_⟩
    exact absurd hs (fun hh => no_child_of_all_none _ (by decide) s j hh)
  · intro l lst hl j hj
    have hlt : l < 8 := by
      have := (List.getElem?_eq_some_iff.mp hl).1
      simpa [QI] using this
    interval_cases l <;>
      (cases hl; first
        | (rcases List.mem_singleton.mp hj with rfl; decide)
        | cases hj)
  · intro i₁ s₁ n₁ i₂ s₂ n₂ j h₁ h₂ hc₁ hc₂
    have hi : i₁ < 1 := by
      have := (List.getElem?_eq_some_iff.mp h₁).1
      simpa [QI] using this
    interval_cases i₁
    cases h₁
    exact absurd hc₁ (fun hh => no_child_of_all_none _ (by decide) s₁ j hh)

/-- The freshly constructed quantizer has all palette indices zero. -/
theorem QI_pz : PaletteZero QI := by
  intro i n h
  have hi : i < 1 := by
    have := (List.getElem?_eq_some_iff.mp h).1
    simpa [QI] using this
  interval_cases i
  cases h
  rfl

/-- Every node of the freshly constructed quantizer is the root. -/
theorem QI_rooted : ∀ (i : Nat) (n : OctreeNode), QI.nodes[i]? = some n → i = QI.root := by
  intro i n h
  have hi : i < 1 := by
    have := (List.getElem?_eq_some_iff.mp h).1
    simpa [QI] using this
  interval_cases i
  rfl

/-- The root node has at least one occupied child slot. -/
def RootHasChild (q : OctreeQuantizer) : Prop :=
  ∃ (n : OctreeNode) (s j : Nat), q.nodes[q.root]? = some n ∧
    n.children[s]? = some (some j)

/-- One `add_color` call with class `MAX_DEPTH = 8` on a well-formed state:
it succeeds and preserves phase-1 invariants, and afterwards the root has a
child. -/
theorem add_color_inv (q : OctreeQuantizer) (c : Color) (hwf : WF q)
    (hpz : PaletteZero q) :
    ∃ q', q.add_color 8 c = some q' ∧ WF q' ∧ PaletteZero q' ∧ Mono q q' ∧
      RootHasChild q' ∧
      ((∀ (i : Nat) (n : OctreeNode), q.nodes[i]? = some n → i = q.root ∨
          (0 < n.pixel_count ∨ ∃ (s j : Nat), n.children[s]? = some (some j))) →
        LeafOrChild q') := by
  have hroot : q.root < q.nodes.length := hwf.rootEq ▸ hwf.nodesNE
  obtain ⟨q', heq, h1, h2, h3, h4, h5, h6, h7, h8, h9⟩ :=
    addColorAux_spec 8 8 0 q q.root c (by omega) hroot hwf.childrenOk
      hwf.levelsOk hwf.inj (fun l hl => by rw [hwf.levelsLen]; omega)
  have hlen : q.nodes.length ≤ q'.nodes.length := h3
  refine ⟨q', heq, ⟨h1.trans hwf.rootEq, by omega, h2.trans hwf.levelsLen, h4, h5, h6⟩,
    ?_, ⟨h1, h3, h7⟩, ?_, ?_⟩
  · -- PaletteZero
    intro i n' hn'
    by_cases hi : i < q.nodes.length
    · obtain ⟨n, hn⟩ : ∃ n, q.nodes[i]? = some n := ⟨_, List.getElem?_eq_getElem hi⟩
      obtain ⟨n'', hn'', hm⟩ := h7 i n hn
      rw [hn''] at hn'
      cases hn'
      exact hm.2.2.1.trans (hpz i n hn)
    · exact (h8 i n' hn' (by omega)).1
  · -- RootHasChild
    have hrootlt : q.root < q'.nodes.length := by omega
    obtain ⟨n', hn'⟩ : ∃ n', q'.nodes[q.root]? = some n' :=
      ⟨_, List.getElem?_eq_getElem hrootlt⟩
    obtain ⟨s, j, hs⟩ := (h9 n' hn').2 (by omega)
    exact ⟨n', s, j, h1 ▸ hn', hs⟩
  · -- LeafOrChild
    intro hrooted i n' hn'
    by_cases hi : i < q.nodes.length
    · obtain ⟨n, hn⟩ : ∃ n, q.nodes[i]? = some n := ⟨_, List.getElem?_eq_getElem hi⟩
      obtain ⟨n'', hn'', hm⟩ := h7 i n hn
      rw [hn''] at hn'
      cases hn'
      rcases hrooted i n hn with hir | hlc | ⟨s, j, hs⟩
      · subst hir
        exact Or.inr ((h9 _ hn'').2 (by omega))
      · exact Or.inl (Nat.lt_of_lt_of_le hlc hm.1)
      · exact Or.inr ⟨s, j, hm.2.2.2 s j hs⟩
    · exact (h8 i n' hn' (by omega)).2

/-- Phase-1 induction: ingesting any color list preserves the invariants,
and a non-empty ingestion makes every node a leaf-or-parent and gives the
root a child. -/
theorem addAll_inv :
    ∀ (cs : List Color) (q q' : OctreeQuantizer),
      addAll 8 (some q) cs = some q' → WF q → PaletteZero q →
      (∀ (i : Nat) (n : OctreeNode), q.nodes[i]? = some n → i = q.root ∨
        (0 < n.pixel_count ∨ ∃ (s j : Nat), n.children[s]? = some (some j))) →
      WF q' ∧ PaletteZero q' ∧ Mono q q' ∧
      (∀ (i : Nat) (n : OctreeNode), q'.nodes[i]? = some n → i = q'.root ∨
        (0 < n.pixel_count ∨ ∃ (s j : Nat), n.children[s]? = some (some j))) ∧
      (cs ≠ [] → LeafOrChild q' ∧ RootHasChild q') := by
  intro cs
  induction cs with
  | nil =>
    intro q q' heq hwf hpz hrooted
    cases heq
    exact ⟨hwf, hpz, mono_refl q, hrooted, fun h => absurd rfl h⟩
  | cons c rest ih =>
    intro q q' heq hwf hpz hrooted
    obtain ⟨q1, heq1, hwf1, hpz1, hmono1, hrc1, hlc1⟩ := add_color_inv q c hwf hpz
    rw [addAll_cons, heq1] at heq
    have hlc1' : LeafOrChild q1 := hlc1 hrooted
    obtain ⟨hwf', hpz', hmono', hrooted', _⟩ :=
      ih q1 q' heq hwf1 hpz1 (fun i n hn => Or.inr (hlc1' i n hn))
    refine ⟨hwf', hpz', mono_trans hmono1 hmono', hrooted', fun _ => ⟨?_, ?_⟩⟩
    · -- LeafOrChild is preserved by the remaining adds
      intro i n' hn'
      by_cases hi : i < q1.nodes.length
      · obtain ⟨n, hn⟩ : ∃ n, q1.nodes[i]? = some n := ⟨_, List.getElem?_eq_getElem hi⟩
        obtain ⟨n'', hn'', hm⟩ := hmono'.2.2 i n hn
        rw [hn''] at hn'
        cases hn'
        rcases hlc1' i n hn with hp | ⟨s, j, hs⟩
        · exact Or.inl (Nat.lt_of_lt_of_le hp hm.1)
        · exact Or.inr ⟨s, j, hm.2.2.2 s j hs⟩
      · -- nodes added later are leaves-or-parents by `hrooted'` unless root
        rcases hrooted' i n' hn' with hir | h
        · -- the root is an old node, contradiction with `¬ i < q1.nodes.length`
          subst hir
          have : q'.root = q1.root := hmono'.1
          have hr1 : q1.root < q1.nodes.length := hwf1.rootEq ▸ hwf1.nodesNE
          omega
        · exact h
    · -- RootHasChild is preserved by the remaining adds
      obtain ⟨n, s, j, hn, hs⟩ := hrc1
      obtain ⟨n', hn', hm⟩ := hmono'.2.2 _ n hn
      exact ⟨n', s, j, hmono'.1 ▸ hn', hm.2.2.2 s j hs⟩

/-- Every state produced by `buildQ` satisfies the phase-1 invariants. -/
theorem buildQ_inv (cs : List Color) (q : OctreeQuantizer)
    (h : buildQ cs = some q) :
    WF q ∧ PaletteZero q ∧
    (cs ≠ [] → LeafOrChild q ∧ RootHasChild q) := by
  have h' : addAll 8 (some QI) cs = some q := by
    rw [buildQ, step_init] at h
    exact h
  obtain ⟨hwf, hpz, _, _, hne⟩ := addAll_inv cs QI q h' QI_wf QI_pz
    (fun i n hn => Or.inl (QI_rooted i n hn))
  exact ⟨hwf, hpz, hne⟩

/-- Evolution of states under reduction: same arena ids, children and
palette indices untouched, pixel counts only grow. -/
def ReduceMono (q q' : OctreeQuantizer) : Prop :=
  q'.root = q.root ∧ q'.nodes.length = q.nodes.length ∧
  ∀ (i : Nat) (n : OctreeNode), q.nodes[i]? = some n →
    ∃ n', q'.nodes[i]? = some n' ∧ n.pixel_count ≤ n'.pixel_count ∧
      n'.children = n.children ∧ n'.palette_index = n.palette_index

theorem reduceMono_refl (q : OctreeQuantizer) : ReduceMono q q :=
  ⟨rfl, rfl, fun _ n h => ⟨n, h, Nat.le_refl _, rfl, rfl⟩⟩

theorem reduceMono_trans {q q' q'' : OctreeQuantizer}
    (h1 : ReduceMono q q') (h2 : ReduceMono q' q'') : ReduceMono q q'' := by
  refine ⟨h2.1.trans h1.1, h2.2.1.trans h1.2.1, fun i n hn => ?_⟩
  obtain ⟨n', hn', hp, hc, hpi⟩ := h1.2.2 i n hn
  obtain ⟨n'', hn'', hp', hc', hpi'⟩ := h2.2.2 i n' hn'
  exact ⟨n'', hn'', Nat.le_trans hp hp', hc'.trans hc, hpi'.trans hpi⟩

/-- Backward node access under `ReduceMono`. -/
theorem reduceMono_back {q q' : OctreeQuantizer} (h : ReduceMono q q') :
    ∀ (i : Nat) (n' : OctreeNode), q'.nodes[i]? = some n' →
      ∃ n, q.nodes[i]? = some n ∧ n.pixel_count ≤ n'.pixel_count ∧
        n'.children = n.children ∧ n'.palette_index = n.palette_index := by
  intro i n' hn'
  have hi : i < q.nodes.length := by
    have h1 := (List.getElem?_eq_some_iff.mp hn').1
    have h2 := h.2.1
    omega
  obtain ⟨n, hn⟩ : ∃ n, q.nodes[i]? = some n := ⟨_, List.getElem?_eq_getElem hi⟩
  obtain ⟨n'', hn'', hp, hc, hpi⟩ := h.2.2 i n hn
  rw [hn''] at hn'
  cases hn'
  exact ⟨n, hn, hp, hc, hpi⟩

/-- The fold loop of `remove_leaves` succeeds and is a `ReduceMono` step. -/
theorem removeLeavesGo_spec :
    ∀ (slots : List (Option Nat)) (q : OctreeQuantizer) (nid : Nat) (res : Int),
      nid < q.nodes.length →
      (∀ cid : Nat, (some cid) ∈ slots → cid < q.nodes.length) →
      ∃ q' d, removeLeavesGo q nid slots res = some (q', d) ∧
        ReduceMono q q' ∧ q'.levels = q.levels := by
  intro slots
  induction slots with
  | nil =>
    intro q nid res hnid hb
    exact ⟨q, res - 1, rfl, reduceMono_refl q, rfl⟩
  | cons slot rest ih =>
    intro q nid res hnid hb
    cases slot with
    | none =>
      obtain ⟨q', d, heq, hm, hl⟩ := ih q nid res hnid (fun cid hc => hb cid (by simp [hc]))
      exact ⟨q', d, heq, hm, hl⟩
    | some cid =>
      have hcid : cid < q.nodes.length := hb cid (by simp)
      obtain ⟨cn, hcn⟩ : ∃ cn, q.nodes[cid]? = some cn := ⟨_, List.getElem?_eq_getElem hcid⟩
      obtain ⟨n, hn⟩ : ∃ n, q.nodes[nid]? = some n := ⟨_, List.getElem?_eq_getElem hnid⟩
      set n1 : OctreeNode :=
        { n with
          color := { n.color with
            red := n.color.red + cn.color.red
            green := n.color.green + cn.color.green
            blue := n.color.blue + cn.color.blue }
          pixel_count := n.pixel_count + cn.pixel_count } with hn1
      set q2 : OctreeQuantizer := { q with nodes := q.nodes.set nid n1 } with hq2
      have hstep : ReduceMono q q2 := by
        refine ⟨rfl, by simp [hq2], fun i m hm => ?_⟩
        by_cases hi : i = nid
        · subst hi
          rw [hn] at hm
          cases hm
          exact ⟨n1, by simpa [hq2] using List.getElem?_set_self hnid,
            Nat.le_add_right _ _, rfl, rfl⟩
        · exact ⟨m, by simpa [hq2] using
            (List.getElem?_set_ne (fun hh => hi hh.symm)).trans hm, Nat.le_refl _, rfl, rfl⟩
      have hlen2 : q2.nodes.length = q.nodes.length := by simp [hq2]
      obtain ⟨q', d, heq, hm', hl'⟩ :=
        ih q2 nid (res + 1) (by omega) (fun c2 hc2 => by
          rw [hlen2]; exact hb c2 (by simp [hc2]))
      refine ⟨q', d, ?_, reduceMono_trans hstep hm', hl'.trans rfl⟩
      simp only [removeLeavesGo, hcn, hn]
      exact heq

/-- `remove_leaves` on a valid node id succeeds and is a `ReduceMono` step. -/
theorem removeLeaves_spec (q : OctreeQuantizer) (nid : Nat)
    (hnid : nid < q.nodes.length) (hChild : ChildrenOk q) :
    ∃ q' d, removeLeaves q nid = some (q', d) ∧
      ReduceMono q q' ∧ q'.levels = q.levels := by
  obtain ⟨n, hn⟩ : ∃ n, q.nodes[nid]? = some n := ⟨_, List.getElem?_eq_getElem hnid⟩
  have hb : ∀ cid : Nat, (some cid) ∈ n.children → cid < q.nodes.length := by
    intro cid hc
    obtain ⟨s, hs⟩ := List.get_of_mem hc
    have hs' : n.children[s.1]? = some (some cid) := by
      rw [List.getElem?_eq_getElem s.2]
      simpa [List.get_eq_getElem] using congrArg some hs
    exact ((hChild nid n hn).2 s.1 cid hs').2
  obtain ⟨q', d, heq, hm, hl⟩ := removeLeavesGo_spec n.children q nid 0 hnid hb
  refine ⟨q', d, ?_, hm, hl⟩
  simp only [removeLeaves, hn]
  exact heq

theorem childrenOk_reduce {q q' : OctreeQuantizer} (h : ReduceMono q q')
    (hC : ChildrenOk q) : ChildrenOk q' := by
  intro i n' hn'
  obtain ⟨n, hn, _, hc, _⟩ := reduceMono_back h i n' hn'
  have := hC i n hn
  rw [hc, h.2.1]
  exact this

theorem inj_reduce {q q' : OctreeQuantizer} (h : ReduceMono q q')
    (hI : Inj q) : Inj q' := by
  intro i₁ s₁ n₁ i₂ s₂ n₂ j h₁ h₂ hc₁ hc₂
  obtain ⟨m₁, hm₁, _, hcc₁, _⟩ := reduceMono_back h i₁ n₁ h₁
  obtain ⟨m₂, hm₂, _, hcc₂, _⟩ := reduceMono_back h i₂ n₂ h₂
  exact hI i₁ s₁ m₁ i₂ s₂ m₂ j hm₁ hm₂ (hcc₁ ▸ hc₁) (hcc₂ ▸ hc₂)

theorem leafOrChild_reduce {q q' : OctreeQuantizer} (h : ReduceMono q q')
    (hL : LeafOrChild q) : LeafOrChild q' := by
  intro i n' hn'
  obtain ⟨n, hn, hp, hc, _⟩ := reduceMono_back h i n' hn'
  rcases hL i n hn with hpx | ⟨s, j, hs⟩
  · exact Or.inl (Nat.lt_of_lt_of_le hpx hp)
  · exact Or.inr ⟨s, j, hc ▸ hs⟩

theorem rootHasChild_reduce {q q' : OctreeQuantizer} (h : ReduceMono q q')
    (hR : RootHasChild q) : RootHasChild q' := by
  obtain ⟨n, s, j, hn, hs⟩ := hR
  obtain ⟨n', hn', _, hc, _⟩ := h.2.2 _ n hn
  exact ⟨n', s, j, h.1 ▸ hn', hc ▸ hs⟩

theorem paletteZero_reduce {q q' : OctreeQuantizer} (h : ReduceMono q q')
    (hp : PaletteZero q) : PaletteZero q' := by
  intro i n' hn'
  obtain ⟨n, hn, _, _, hpi⟩ := reduceMono_back h i n' hn'
  rw [hpi]
  exact hp i n hn

/-- The inner reduction loop over one registry level. -/
theorem reduceLevelGo_spec :
    ∀ (ids : List Nat) (q : OctreeQuantizer) (lc cc : Int),
      (∀ id ∈ ids, id < q.nodes.length) → ChildrenOk q →
      ∃ q' lc', reduceLevelGo q ids lc cc = some (q', lc') ∧
        ReduceMono q q' ∧ q'.levels = q.levels := by
  intro ids
  induction ids with
  | nil =>
    intro q lc cc hb hC
    exact ⟨q, lc, rfl, reduceMono_refl q, rfl⟩
  | cons id rest ih =>
    intro q lc cc hb hC
    obtain ⟨q1, d, heq1, hm1, hl1⟩ :=
      removeLeaves_spec q id (hb id (by simp)) hC
    by_cases hstop : lc - d ≤ cc
    · refine ⟨q1, lc - d, ?_, hm1, hl1⟩
      simp only [reduceLevelGo, heq1, if_pos hstop]
    · obtain ⟨q', lc', heq', hm', hl'⟩ := ih q1 (lc - d) cc
        (fun i hi => by rw [hm1.2.1]; exact hb i (by simp [hi]))
        (childrenOk_reduce hm1 hC)
      refine ⟨q', lc', ?_, reduceMono_trans hm1 hm', hl'.trans hl1⟩
      simp only [reduceLevelGo, heq1, if_neg hstop]
      exact heq'

/-- The outer reduction loop over the levels list. -/
theorem reduceLoop_spec :
    ∀ (lvls : List Nat) (q : OctreeQuantizer) (lc cc : Int),
      (∀ l ∈ lvls, l < q.levels.length) → ChildrenOk q → LevelsOk q →
      ∃ q' lc', reduceLoop q lvls lc cc = some (q', lc') ∧
        ReduceMono q q' ∧ q'.levels.length = q.levels.length ∧
        ChildrenOk q' ∧ LevelsOk q' := by
  intro lvls
  induction lvls with
  | nil =>
    intro q lc cc hb hC hL
    exact ⟨q, lc, rfl, reduceMono_refl q, rfl, hC, hL⟩
  | cons level rest ih =>
    intro q lc cc hb hC hL
    have hlev : level < q.levels.length := hb level (by simp)
    obtain ⟨lst, hlst⟩ : ∃ lst, q.levels[level]? = some lst :=
      ⟨_, List.getElem?_eq_getElem hlev⟩
    by_cases hemp : lst.isEmpty
    · obtain ⟨q', lc', heq', hm', hlen', hC', hL'⟩ := ih q lc cc
        (fun l hl => hb l (by simp [hl])) hC hL
      refine ⟨q', lc', ?_, hm', hlen', hC', hL'⟩
      simp only [reduceLoop, hlst, if_pos hemp]
      exact heq'
    · obtain ⟨q1, lc1, heq1, hm1, hl1⟩ :=
        reduceLevelGo_spec lst q lc cc (fun i hi => hL level lst hlst i hi) hC
      by_cases hstop : lc1 ≤ cc
      · refine ⟨q1, lc1, ?_, hm1, by rw [hl1], childrenOk_reduce hm1 hC, ?_⟩
        · simp only [reduceLoop, hlst, if_neg hemp, heq1, if_pos hstop]
        · intro l lst' hl' j hj
          rw [hm1.2.1]
          exact hL l lst' (hl1 ▸ hl') j hj
      · set q2 : OctreeQuantizer := { q1 with levels := q1.levels.set level [] } with hq2
        have hm2 : ReduceMono q q2 := by
          refine ⟨hm1.1, hm1.2.1, fun i n hn => ?_⟩
          obtain ⟨n', hn', hp, hc, hpi⟩ := hm1.2.2 i n hn
          exact ⟨n', hn', hp, hc, hpi⟩
        have hC2 : ChildrenOk q2 := by
          have := childrenOk_reduce hm1 hC
          intro i n hn
          exact this i n hn
        have hL2 : LevelsOk q2 := by
          intro l lst' hl' j hj
          have hll : q2.levels = q1.levels.set level [] := rfl
          rw [hll] at hl'
          by_cases hl2 : l = level
          · subst hl2
            rw [List.getElem?_set_self (by rw [hl1]; exact hlev)] at hl'
            cases hl'
            cases hj
          · rw [List.getElem?_set_ne (fun hh => hl2 hh.symm)] at hl'
            have : q2.nodes.length = q.nodes.length := hm1.2.1
            rw [show q2.nodes = q1.nodes from rfl, hm1.2.1]
            exact hL l lst' (hl1 ▸ hl') j hj
        obtain ⟨q', lc', heq', hm', hlen', hC', hL'⟩ := ih q2 lc1 cc
          (fun l hl => by
            have : q2.levels.length = q.levels.length := by
              simp [hq2, hl1]
            rw [this]
            exact hb l (by simp [hl]))
          hC2 hL2
        refine ⟨q', lc', ?_, reduceMono_trans hm2 hm', ?_, hC', hL'⟩
        · simp only [reduceLoop, hlst, if_neg hemp, heq1, if_neg hstop]
          exact heq'
        · rw [hlen']
          simp [hq2, hl1]

/-- Success of the slot walk, given that every occupied slot's node exists
and non-leaf children can be descended into. -/
theorem leafWalk_isSome (q : OctreeQuantizer) (descend : Nat → Option (List Nat)) :
    ∀ slots : List (Option Nat),
      (∀ j : Nat, (some j) ∈ slots → ∃ cn, q.nodes[j]? = some cn ∧
        (cn.is_leaf = false → ∃ l, descend j = some l)) →
      ∃ l, leafWalk q descend slots = some l := by
  intro slots
  induction slots with
  | nil => exact fun _ => ⟨[], rfl⟩
  | cons slot rest ih =>
    intro hslots
    cases slot with
    | none =>
      obtain ⟨l, hl⟩ := ih (fun j hj => hslots j (by simp [hj]))
      exact ⟨l, by simpa [leafWalk] using hl⟩
    | some cid =>
      obtain ⟨cn, hcn, hdesc⟩ := hslots cid (by simp)
      obtain ⟨there, hthere⟩ := ih (fun j hj => hslots j (by simp [hj]))
      by_cases hleaf : cn.is_leaf
      · exact ⟨[cid] ++ there, by simp only [leafWalk, hcn, if_pos hleaf, hthere]⟩
      · obtain ⟨here, hhere⟩ := hdesc (by simpa using hleaf)
        exact ⟨here ++ there, by
          simp only [leafWalk, hcn, if_neg hleaf, hhere, hthere]⟩

/-- Success of `get_leaf_nodes` with fuel at least the remaining arena span. -/
theorem getLeafNodes_isSome (q : OctreeQuantizer) (hC : ChildrenOk q) :
    ∀ (fuel nid : Nat), nid < q.nodes.length → q.nodes.length ≤ nid + fuel →
      ∃ l, getLeafNodes q fuel nid = some l := by
  intro fuel
  induction fuel with
  | zero => intro nid h1 h2; omega
  | succ fuel ih =>
    intro nid h1 h2
    obtain ⟨n, hn⟩ : ∃ n, q.nodes[nid]? = some n := ⟨_, List.getElem?_eq_getElem h1⟩
    obtain ⟨l, hl⟩ := leafWalk_isSome q (fun cid => getLeafNodes q fuel cid) n.children
      (fun j hj => by
        obtain ⟨s, hs⟩ := List.get_of_mem hj
        have hs' : n.children[s.1]? = some (some j) := by
          rw [List.getElem?_eq_getElem s.2]
          simpa [List.get_eq_getElem] using congrArg some hs
        have hb := (hC nid n hn).2 s.1 j hs'
        obtain ⟨cn, hcn⟩ : ∃ cn, q.nodes[j]? = some cn :=
          ⟨_, List.getElem?_eq_getElem hb.2⟩
        exact ⟨cn, hcn, fun _ => ih j hb.2 (by omega)⟩)
    exact ⟨l, by simpa only [getLeafNodes, hn] using hl⟩

/-- Everything collected by the slot walk is a leaf. -/
theorem leafWalk_leaves (q : OctreeQuantizer) (descend : Nat → Option (List Nat))
    (hdesc : ∀ (j : Nat) (l' : List Nat), descend j = some l' →
      ∀ x ∈ l', ∃ nx, q.nodes[x]? = some nx ∧ 0 < nx.pixel_count) :
    ∀ (slots : List (Option Nat)) (l : List Nat),
      leafWalk q descend slots = some l →
      ∀ x ∈ l, ∃ nx, q.nodes[x]? = some nx ∧ 0 < nx.pixel_count := by
  intro slots
  induction slots with
  | nil =>
    intro l hwalk x hx
    cases hwalk
    cases hx
  | cons slot rest ih =>
    intro l hwalk x hx
    cases slot with
    | none => exact ih l (by simpa [leafWalk] using hwalk) x hx
    | some cid =>
      cases hcn : q.nodes[cid]? with
      | none => simp only [leafWalk, hcn] at hwalk; cases hwalk
      | some cn =>
        cases hhere : (if cn.is_leaf = true then some [cid] else descend cid) with
        | none => simp only [leafWalk, hcn, hhere] at hwalk; cases hwalk
        | some here =>
          cases hthere : leafWalk q descend rest with
          | none => simp only [leafWalk, hcn, hhere, hthere] at hwalk; cases hwalk
          | some there =>
            simp only [leafWalk, hcn, hhere, hthere, Option.some.injEq] at hwalk
            subst hwalk
            rcases List.mem_append.mp hx with hxl | hxr
            · by_cases hleaf : cn.is_leaf
              · rw [if_pos hleaf] at hhere
                cases hhere
                rcases List.mem_singleton.mp hxl with rfl
                exact ⟨cn, hcn, by simpa [OctreeNode.is_leaf] using hleaf⟩
              · rw [if_neg hleaf] at hhere
                exact hdesc cid here hhere x hxl
            · exact ih there hthere x hxr

/-- Everything enumerated by `get_leaf_nodes` is a leaf. -/
theorem getLeafNodes_leaves (q : OctreeQuantizer) :
    ∀ (fuel nid : Nat) (l : List Nat), getLeafNodes q fuel nid = some l →
      ∀ x ∈ l, ∃ nx, q.nodes[x]? = some nx ∧ 0 < nx.pixel_count := by
  intro fuel
  induction fuel with
  | zero => intro nid l h; cases h
  | succ fuel ih =>
    intro nid l h
    simp only [getLeafNodes] at h
    cases hn : q.nodes[nid]? with
    | none => rw [hn] at h; cases h
    | some n =>
      rw [hn] at h
      exact leafWalk_leaves q _ (fun j l' hj => ih j l' hj) n.children l h

/-- The slot walk returns a non-empty list when some slot is occupied. -/
theorem leafWalk_ne_nil (q : OctreeQuantizer) (descend : Nat → Option (List Nat))
    (hdesc : ∀ (j : Nat) (cn : OctreeNode), q.nodes[j]? = some cn →
      cn.is_leaf = false → ∀ l', descend j = some l' → l' ≠ []) :
    ∀ (slots : List (Option Nat)) (l : List Nat),
      leafWalk q descend slots = some l →
      (∃ j : Nat, (some j) ∈ slots) → l ≠ [] := by
  intro slots
  induction slots with
  | nil =>
    intro l _ hex
    obtain ⟨j, hj⟩ := hex
    cases hj
  | cons slot rest ih =>
    intro l hwalk hex
    cases slot with
    | none =>
      refine ih l (by simpa [leafWalk] using hwalk) ?_
      obtain ⟨j, hj⟩ := hex
      rcases List.mem_cons.mp hj with h | h
      · cases h
      · exact ⟨j, h⟩
    | some cid =>
      cases hcn : q.nodes[cid]? with
      | none => simp only [leafWalk, hcn] at hwalk; cases hwalk
      | some cn =>
        cases hhere : (if cn.is_leaf = true then some [cid] else descend cid) with
        | none => simp only [leafWalk, hcn, hhere] at hwalk; cases hwalk
        | some here =>
          cases hthere : leafWalk q descend rest with
          | none => simp only [leafWalk, hcn, hhere, hthere] at hwalk; cases hwalk
          | some there =>
            simp only [leafWalk, hcn, hhere, hthere, Option.some.injEq] at hwalk
            subst hwalk
            by_cases hleaf : cn.is_leaf
            · rw [if_pos hleaf] at hhere
              cases hhere
              simp
            · rw [if_neg hleaf] at hhere
              have := hdesc cid cn hcn (by simpa using hleaf) here hhere
              simpa using fun hh => this (List.append_eq_nil.mp hh).1

/-- `get_leaf_nodes` from a node with an occupied slot, in a state where
every node is a leaf or a parent, returns a non-empty list. -/
theorem getLeafNodes_ne_nil (q : OctreeQuantizer) (hLC : LeafOrChild q) :
    ∀ (fuel nid : Nat) (n : OctreeNode) (l : List Nat), q.nodes[nid]? = some n →
      (∃ (s j : Nat), n.children[s]? = some (some j)) →
      getLeafNodes q fuel nid = some l → l ≠ [] := by
  intro fuel
  induction fuel with
  | zero => intro nid n l _ _ h; cases h
  | succ fuel ih =>
    intro nid n l hn hex h
    simp only [getLeafNodes, hn] at h
    refine leafWalk_ne_nil q _ ?_ n.children l h ?_
    · intro j cn hcn hleaf l' hl'
      rcases hLC j cn hcn with hp | hch
      · rw [show cn.is_leaf = true by simpa [OctreeNode.is_leaf] using hp] at hleaf
        cases hleaf
      · exact ih j cn l' hcn hch hl'
    · obtain ⟨s, j, hs⟩ := hex
      exact ⟨j, by
        have := (List.getElem?_eq_some_iff.mp hs).1
        obtain ⟨hlt, hval⟩ := List.getElem?_eq_some_iff.mp hs
        exact hval ▸ List.getElem_mem hlt⟩

/-- Observation helper: the average color stored at an arena id. -/
def avgOf (q : OctreeQuantizer) (nid : Nat) : Option Color :=
  (q.nodes[nid]?).bind OctreeNode.get_color

/-- Evolution of states under the palette-building loop: only
`palette_index` fields change. -/
def StampEq (q q' : OctreeQuantizer) : Prop :=
  q'.root = q.root ∧ q'.nodes.length = q.nodes.length ∧ q'.levels = q.levels ∧
  ∀ (i : Nat) (n : OctreeNode), q.nodes[i]? = some n →
    ∃ n', q'.nodes[i]? = some n' ∧ n'.pixel_count = n.pixel_count ∧
      n'.children = n.children ∧ n'.color = n.color

theorem stampEq_refl (q : OctreeQuantizer) : StampEq q q :=
  ⟨rfl, rfl, rfl, fun _ n h => ⟨n, h, rfl, rfl, rfl⟩⟩

theorem stampEq_trans {q q' q'' : OctreeQuantizer}
    (h1 : StampEq q q') (h2 : StampEq q' q'') : StampEq q q'' := by
  refine ⟨h2.1.trans h1.1, h2.2.1.trans h1.2.1, h2.2.2.1.trans h1.2.2.1,
    fun i n hn => ?_⟩
  obtain ⟨n', hn', hp, hc, hcol⟩ := h1.2.2.2 i n hn
  obtain ⟨n'', hn'', hp', hc', hcol'⟩ := h2.2.2.2 i n' hn'
  exact ⟨n'', hn'', hp'.trans hp, hc'.trans hc, hcol'.trans hcol⟩

theorem stampEq_avgOf {q q' : OctreeQuantizer} (h : StampEq q q') (x : Nat) :
    avgOf q' x = avgOf q x := by
  unfold avgOf
  cases hx : q.nodes[x]? with
  | none =>
    rw [List.getElem?_eq_none_iff] at hx
    rw [List.getElem?_eq_none (by rw [h.2.1]; exact hx)]
  | some n =>
    obtain ⟨n', hn', hp, _, hcol⟩ := h.2.2.2 x n hx
    rw [hn']
    show n'.get_color = n.get_color
    unfold OctreeNode.get_color
    rw [hp, hcol]

/-- Master specification of the palette-building loop. -/
theorem buildPalette_spec :
    ∀ (leaves : List Nat) (q : OctreeQuantizer) (pal0 : List Color) (p0 : Nat)
      (cc : Int),
      (∀ id ∈ leaves, ∃ n, q.nodes[id]? = some n ∧ 0 < n.pixel_count) →
      ∃ pal q', buildPalette q leaves pal0 p0 cc = some (pal, q') ∧
        StampEq q q' ∧
        (∃ newPart : List Color, pal = pal0 ++ newPart ∧
          newPart.length = min leaves.length (cc - p0).toNat ∧
          (∀ (k id : Nat), leaves[k]? = some id → (k : Int) < cc - p0 →
            newPart[k]? = avgOf q id)) ∧
        (∀ (x k : Nat), leaves[k]? = some x → (k : Int) < cc - p0 →
          ∃ p : Nat, (p : Int) < cc - p0 ∧ leaves[p]? = some x ∧
            (∀ nx', q'.nodes[x]? = some nx' → nx'.palette_index = p0 + p)) ∧
        (∀ (x : Nat) (nx : OctreeNode), q.nodes[x]? = some nx →
          (∀ j : Nat, (j : Int) < cc - p0 → leaves[j]? ≠ some x) →
          ∃ nx', q'.nodes[x]? = some nx' ∧ nx'.palette_index = nx.palette_index) := by
  intro leaves
  induction leaves with
  | nil =>
    intro q pal0 p0 cc _
    refine ⟨pal0, q, rfl, stampEq_refl q, ⟨[], by simp, by simp, ?_⟩, ?_, ?_⟩
    · intro k id hk
      cases hk
    · intro x k hk
      simp at hk
    · intro x nx hx _
      exact ⟨nx, hx, rfl⟩
  | cons id rest ih =>
    intro q pal0 p0 cc hleaves
    by_cases hcc : cc ≤ (p0 : Int)
    · refine ⟨pal0, q, by simp only [buildPalette, if_pos hcc], stampEq_refl q,
        ⟨[], by simp, ?_, ?_⟩, ?_, ?_⟩
      · simp only [List.length_nil]
        omega
      · intro k kid hk hklt
        omega
      · intro x k hk hklt
        exfalso
        omega
      · intro x nx hx _
        exact ⟨nx, hx, rfl⟩
    · obtain ⟨n, hn, hpx⟩ := hleaves id (by simp)
      have hleaf : n.is_leaf = true := by simpa [OctreeNode.is_leaf] using hpx
      obtain ⟨col, hcol⟩ : ∃ col, n.get_color = some col := by
        unfold OctreeNode.get_color
        rw [if_neg (by omega)]
        exact ⟨_, rfl⟩
      have hid : id < q.nodes.length := (List.getElem?_eq_some_iff.mp hn).1
      set n1 : OctreeNode := { n with palette_index := p0 } with hn1
      set q1 : OctreeQuantizer := { q with nodes := q.nodes.set id n1 } with hq1
      have hstep : StampEq q q1 := by
        refine ⟨rfl, by simp [hq1], rfl, fun i m hm => ?_⟩
        by_cases hi : i = id
        · subst hi
          rw [hn] at hm
          cases hm
          exact ⟨n1, by simpa [hq1] using List.getElem?_set_self hid, rfl, rfl, rfl⟩
        · exact ⟨m, by simpa [hq1] using
            (List.getElem?_set_ne (fun hh => hi hh.symm)).trans hm, rfl, rfl, rfl⟩
      have hq1get : ∀ (x : Nat), x ≠ id → q1.nodes[x]? = q.nodes[x]? := by
        intro x hx
        simpa [hq1] using List.getElem?_set_ne (fun hh => hx hh.symm)
      have hq1id : q1.nodes[id]? = some n1 := by
        simpa [hq1] using List.getElem?_set_self hid
      obtain ⟨pal, q', heq, hstamp, ⟨newPart, hpal, hnplen, hnpval⟩, hassign, hkeep⟩ :=
        ih q1 (pal0 ++ [col]) (p0 + 1) cc (fun id' hid' => by
          obtain ⟨m, hm, hmp⟩ := hleaves id' (by simp [hid'])
          obtain ⟨m', hm', hp', _, _⟩ := hstep.2.2.2 id' m hm
          exact ⟨m', hm', by omega⟩)
      have heqn : buildPalette q (id :: rest) pal0 p0 cc = some (pal, q') := by
        simp only [buildPalette, if_neg hcc, hn, hleaf, if_pos rfl, hcol,
          Option.map_some']
        exact heq
      refine ⟨pal, q', heqn, stampEq_trans hstep hstamp,
        ⟨col :: newPart, by simpa using hpal, ?_, ?_⟩, ?_, ?_⟩
      · simp only [List.length_cons, hnplen]
        omega
      · intro k kid hk hklt
        cases k with
        | zero =>
          simp only [List.getElem?_cons_zero, Option.some.injEq] at hk
          subst hk
          simp only [List.getElem?_cons_zero, avgOf, hn, Option.some_bind]
          exact hcol.symm
        | succ k =>
          simp only [List.getElem?_cons_succ] at hk ⊢
          rw [hnpval k kid hk (by push_cast at hklt ⊢; omega),
            stampEq_avgOf hstep kid]
      · intro x k hk hklt
        by_cases hocc : ∃ j : Nat, (j : Int) < cc - (p0 + 1) ∧ rest[j]? = some x
        · obtain ⟨j, hj, hjx⟩ := hocc
          obtain ⟨p, hp, hpos, hpi⟩ := hassign x j hjx hj
          refine ⟨p + 1, by push_cast at hp ⊢; omega, by simpa using hpos,
            fun nx' hnx' => by rw [hpi nx' hnx']; omega⟩
        · have hxid : x = id := by
            cases k with
            | zero =>
              simp only [List.getElem?_cons_zero, Option.some.injEq] at hk
              exact hk.symm
            | succ k =>
              exfalso
              refine hocc ⟨k, by push_cast at hklt ⊢; omega, ?_⟩
              simpa using hk
          subst hxid
          obtain ⟨nx', hnx', hpi⟩ := hkeep x n1 hq1id (fun j hj hrj =>
            hocc ⟨j, hj, hrj⟩)
          refine ⟨0, by omega, by simp, fun nx'' hnx'' => ?_⟩
          rw [hnx'] at hnx''
          cases hnx''
          rw [hpi]
          show p0 = p0 + 0
          omega
      · intro x nx hx hnot
        have hxid : x ≠ id := by
          intro hh
          subst hh
          exact hnot 0 (by omega) (by simp)
        obtain ⟨nx', hnx', hpi⟩ := hkeep x nx (by rw [hq1get x hxid]; exact hx)
          (fun j hj hrj => hnot (j + 1) (by push_cast at hj ⊢; omega)
            (by simpa using hrj))
        exact ⟨nx', hnx', hpi⟩

/-- Decomposition of a `make_palette` run on a well-formed state. -/
theorem make_palette_parts (q : OctreeQuantizer) (t : Int) (hwf : WF q) :
    ∃ (leaves0 : List Nat) (q1 : OctreeQuantizer) (lc1 : Int)
      (leaves1 : List Nat) (pal : List Color) (q' : OctreeQuantizer),
      q.get_leaves = some leaves0 ∧
      reduceLoop q (List.range 8).reverse (leaves0.length : Int) t = some (q1, lc1) ∧
      q1.get_leaves = some leaves1 ∧
      buildPalette q1 leaves1 [] 0 t = some (pal, q') ∧
      q.make_palette 8 t = some (pal, q') ∧
      ReduceMono q q1 ∧ StampEq q1 q' := by
  have hroot : q.root < q.nodes.length := hwf.rootEq ▸ hwf.nodesNE
  obtain ⟨leaves0, hleaves0⟩ :=
    getLeafNodes_isSome q hwf.childrenOk q.nodes.length q.root hroot (by omega)
  obtain ⟨q1, lc1, hred, hm1, hlen1, hC1, hL1⟩ :=
    reduceLoop_spec (List.range 8).reverse q (leaves0.length : Int) t
      (fun l hl => by
        rw [hwf.levelsLen]
        have := List.mem_range.mp (List.mem_reverse.mp hl)
        omega)
      hwf.childrenOk hwf.levelsOk
  have hroot1 : q1.root < q1.nodes.length := by
    rw [hm1.1, hm1.2.1]
    exact hroot
  obtain ⟨leaves1, hleaves1⟩ :=
    getLeafNodes_isSome q1 hC1 q1.nodes.length q1.root hroot1 (by omega)
  obtain ⟨pal, q', hbuild, hstamp, _, _, _⟩ :=
    buildPalette_spec leaves1 q1 [] 0 t
      (fun id hid => getLeafNodes_leaves q1 _ _ _ hleaves1 id hid)
  refine ⟨leaves0, q1, lc1, leaves1, pal, q', hleaves0, hred, hleaves1, hbuild,
    ?_, hm1, hstamp⟩
  simp only [OctreeQuantizer.make_palette, OctreeQuantizer.get_leaves, hleaves0,
    hred, hleaves1]
  exact hbuild

/-! ### Claim C2: non-trivial palette bounds -/

/-- C2: for every non-empty ingest sequence and every positive target count,
`make_palette` succeeds with a palette of between 1 and `targetCount`
entries. -/
theorem c2_palette_bounds :
    ∀ (cs : List Color) (q : OctreeQuantizer), cs ≠ [] → buildQ cs = some q →
    ∀ t : Int, 0 < t →
    ∃ pal q', q.make_palette 8 t = some (pal, q') ∧
      0 < pal.length ∧ (pal.length : Int) ≤ t := by
  intro cs q hne hq t ht
  obtain ⟨hwf, hpz, hlcrc⟩ := buildQ_inv cs q hq
  obtain ⟨hlc, hrc⟩ := hlcrc hne
  obtain ⟨leaves0, q1, lc1, leaves1, pal, q', hleaves0, hred, hleaves1, hbuild,
    hmp, hm1, hstamp⟩ := make_palette_parts q t hwf
  obtain ⟨pal₂, q₂', hbuild₂, _, ⟨newPart, hpal, hnplen, _⟩, _, _⟩ :=
    buildPalette_spec leaves1 q1 [] 0 t
      (fun id hid => getLeafNodes_leaves q1 _ _ _ hleaves1 id hid)
  rw [hbuild] at hbuild₂
  cases hbuild₂
  have hlen : pal.length = min leaves1.length (t - 0).toNat := by
    rw [hpal] at *
    simpa using hnplen
  have hne1 : leaves1 ≠ [] := by
    obtain ⟨n, s, j, hn, hs⟩ := rootHasChild_reduce hm1 hrc
    exact getLeafNodes_ne_nil q1 (leafOrChild_reduce hm1 hlc) q1.nodes.length
      q1.root n leaves1 hn ⟨s, j, hs⟩ hleaves1
  have hpos : 0 < leaves1.length := List.length_pos.mpr hne1
  refine ⟨pal, q', hmp, ?_, ?_⟩ <;> omega

/-! ### Claim C3 amended: invalid configuration is silently accepted -/

/-- C3 amended: the code performs no validation at these call boundaries:
constructing with `max_depth = 0 < 1` yields a quantizer without error, and
on any state built by ingestion, `make_palette` with `targetCount ≤ 0`
(e.g. 0 or -1) returns normally with an empty palette — the whole tree is
silently reduced and no entry is emitted, rather than a configuration error
being raised. -/
theorem c3_amended :
    (∃ q0, OctreeQuantizer.init 0 = some q0) ∧
    ∀ (cs : List Color) (q : OctreeQuantizer), buildQ cs = some q →
      ∀ t : Int, t ≤ 0 →
      ∃ q', q.make_palette 8 t = some ([], q') := by
  refine ⟨⟨_, rfl⟩, ?_⟩
  intro cs q hq t ht
  obtain ⟨hwf, _, _⟩ := buildQ_inv cs q hq
  obtain ⟨leaves0, q1, lc1, leaves1, pal, q', hleaves0, hred, hleaves1, hbuild,
    hmp, hm1, hstamp⟩ := make_palette_parts q t hwf
  obtain ⟨pal₂, q₂', hbuild₂, _, ⟨newPart, hpal, hnplen, _⟩, _, _⟩ :=
    buildPalette_spec leaves1 q1 [] 0 t
      (fun id hid => getLeafNodes_leaves q1 _ _ _ hleaves1 id hid)
  rw [hbuild] at hbuild₂
  cases hbuild₂
  have hnp : newPart = [] := by
    have : newPart.length = 0 := by
      rw [hnplen]
      omega
    exact List.length_eq_zero.mp this
  refine ⟨q', ?_⟩
  rw [show ([] : List Color) = pal by rw [hpal, hnp]; rfl]
  exact hmp

/-- C2 witness: one color, target 1. -/
theorem c2_palette_bounds_witness :
    ∃ (q : OctreeQuantizer) (pal : List Color) (q' : OctreeQuantizer),
      buildQ [blackC] = some q ∧
      q.make_palette 8 1 = some (pal, q') ∧ 0 < pal.length ∧
      (pal.length : Int) ≤ 1 := by
  obtain ⟨pal, q', h1, h2, h3⟩ :=
    c2_palette_bounds [blackC] Q1 (by simp) step_buildQ_black 1 (by omega)
  exact ⟨Q1, pal, q', step_buildQ_black, h1, h2, h3⟩

/-- C3 amended witness: one color, target 0. -/
theorem c3_amended_witness :
    (∃ q0, OctreeQuantizer.init 0 = some q0) ∧
    ∃ q', Q1.make_palette 8 0 = some ([], q') :=
  ⟨c3_amended.1, c3_amended.2 [blackC] Q1 step_buildQ_black 0 (by omega)⟩

/-- Observation helpers: the pixel count and channel sums stored at an id. -/
def pixelAt (q : OctreeQuantizer) (cid : Nat) : Nat :=
  ((q.nodes[cid]?).map OctreeNode.pixel_count).getD 0

/-- Red channel accumulator at an id. -/
def redAt (q : OctreeQuantizer) (cid : Nat) : Nat :=
  ((q.nodes[cid]?).map (fun n => n.color.red)).getD 0

/-- Green channel accumulator at an id. -/
def greenAt (q : OctreeQuantizer) (cid : Nat) : Nat :=
  ((q.nodes[cid]?).map (fun n => n.color.green)).getD 0

/-- Blue channel accumulator at an id. -/
def blueAt (q : OctreeQuantizer) (cid : Nat) : Nat :=
  ((q.nodes[cid]?).map (fun n => n.color.blue)).getD 0

/-- Exact description of the `remove_leaves` fold when no child aliases the
folded node. -/
theorem removeLeavesGo_exact :
    ∀ (slots : List (Option Nat)) (q : OctreeQuantizer) (nid : Nat)
      (m : OctreeNode) (res : Int),
      q.nodes[nid]? = some m →
      (∀ cid : Nat, (some cid) ∈ slots → cid ≠ nid ∧ ∃ cn, q.nodes[cid]? = some cn) →
      ∃ q' nf, removeLeavesGo q nid slots res =
          some (q', res + ((slots.filterMap id).length : Int) - 1) ∧
        q'.nodes = q.nodes.set nid nf ∧ q'.levels = q.levels ∧ q'.root = q.root ∧
        nf.children = m.children ∧ nf.palette_index = m.palette_index ∧
        nf.pixel_count = m.pixel_count +
          ((slots.filterMap id).map (pixelAt q)).sum ∧
        nf.color.red = m.color.red + ((slots.filterMap id).map (redAt q)).sum ∧
        nf.color.green = m.color.green + ((slots.filterMap id).map (greenAt q)).sum ∧
        nf.color.blue = m.color.blue + ((slots.filterMap id).map (blueAt q)).sum := by
  intro slots
  induction slots with
  | nil =>
    intro q nid m res hm _
    have hnid : nid < q.nodes.length := (List.getElem?_eq_some_iff.mp hm).1
    refine ⟨q, m, by simp [removeLeavesGo], ?_, rfl, rfl, rfl, rfl, by simp, by simp,
      by simp, by simp⟩
    refine (List.ext_getElem? ?_).symm
    intro k
    by_cases hk : k = nid
    · subst hk
      rw [List.getElem?_set_self hnid, hm]
    · rw [List.getElem?_set_ne (fun hh => hk hh.symm)]
  | cons slot rest ih =>
    intro q nid m res hm hb
    cases slot with
    | none =>
      obtain ⟨q', nf, heq, hnodes, hlev, hroot, h1, h2, h3, h4, h5, h6⟩ :=
        ih q nid m res hm (fun cid hc => hb cid (by simp [hc]))
      exact ⟨q', nf, by simpa [removeLeavesGo] using heq, hnodes, hlev, hroot,
        h1, h2, by simpa using h3, by simpa using h4, by simpa using h5,
        by simpa using h6⟩
    | some cid =>
      obtain ⟨hcne, cn, hcn⟩ := hb cid (by simp)
      have hnid : nid < q.nodes.length := (List.getElem?_eq_some_iff.mp hm).1
      set n1 : OctreeNode :=
        { m with
          color := { m.color with
            red := m.color.red + cn.color.red
            green := m.color.green + cn.color.green
            blue := m.color.blue + cn.color.blue }
          pixel_count := m.pixel_count + cn.pixel_count } with hn1
      set q2 : OctreeQuantizer := { q with nodes := q.nodes.set nid n1 } with hq2
      have hq2nid : q2.nodes[nid]? = some n1 := by
        simpa [hq2] using List.getElem?_set_self hnid
      have hq2other : ∀ x : Nat, x ≠ nid → q2.nodes[x]? = q.nodes[x]? := by
        intro x hx
        simpa [hq2] using List.getElem?_set_ne (fun hh => hx hh.symm)
      obtain ⟨q', nf, heq, hnodes, hlev, hroot, h1, h2, h3, h4, h5, h6⟩ :=
        ih q2 nid n1 (res + 1) hq2nid (fun c2 hc2 => by
          obtain ⟨hne2, cn2, hcn2⟩ := hb c2 (by simp [hc2])
          exact ⟨hne2, cn2, by rw [hq2other c2 hne2]; exact hcn2⟩)
      have hmapfix : ∀ f2 f : Nat → Nat, (∀ x : Nat, x ≠ nid → f2 x = f x) →
          ((rest.filterMap id).map f2).sum = ((rest.filterMap id).map f).sum := by
        intro f2 f hff
        refine congrArg List.sum (List.map_congr_left ?_)
        intro x hx
        obtain ⟨b, hbmem, hbx⟩ := List.mem_filterMap.mp hx
        cases hbx
        exact hff x (hb x (by simp [hbmem])).1
      refine ⟨q', nf, ?_, ?_, hlev, hroot, h1.trans rfl, h2.trans rfl, ?_, ?_, ?_, ?_⟩
      · simp only [removeLeavesGo, hcn, hm]
        rw [heq]
        congr 1
        rw [Prod.mk.injEq]
        refine ⟨rfl, ?_⟩
        rw [show (some cid :: rest).filterMap id = cid :: rest.filterMap id from rfl]
        simp only [List.length_cons]
        push_cast
        ring
      · rw [hnodes]
        simp [hq2, List.set_set]
      · rw [h3]
        show m.pixel_count + cn.pixel_count + _ = _
        rw [hmapfix (pixelAt q2) (pixelAt q) (fun x hx => by
          unfold pixelAt
          rw [hq2other x hx])]
        have : pixelAt q cid = cn.pixel_count := by
          unfold pixelAt
          rw [hcn]
          rfl
        rw [show (some cid :: rest).filterMap id = cid :: rest.filterMap id from rfl]
        simp only [List.map_cons, List.sum_cons, this]
        omega
      · rw [h4]
        show m.color.red + cn.color.red + _ = _
        rw [hmapfix (redAt q2) (redAt q) (fun x hx => by
          unfold redAt
          rw [hq2other x hx])]
        have : redAt q cid = cn.color.red := by
          unfold redAt
          rw [hcn]
          rfl
        rw [show (some cid :: rest).filterMap id = cid :: rest.filterMap id from rfl]
        simp only [List.map_cons, List.sum_cons, this]
        omega
      · rw [h5]
        show m.color.green + cn.color.green + _ = _
        rw [hmapfix (greenAt q2) (greenAt q) (fun x hx => by
          unfold greenAt
          rw [hq2other x hx])]
        have : greenAt q cid = cn.color.green := by
          unfold greenAt
          rw [hcn]
          rfl
        rw [show (some cid :: rest).filterMap id = cid :: rest.filterMap id from rfl]
        simp only [List.map_cons, List.sum_cons, this]
        omega
      · rw [h6]
        show m.color.blue + cn.color.blue + _ = _
        rw [hmapfix (blueAt q2) (blueAt q) (fun x hx => by
          unfold blueAt
          rw [hq2other x hx])]
        have : blueAt q cid = cn.color.blue := by
          unfold blueAt
          rw [hcn]
          rfl
        rw [show (some cid :: rest).filterMap id = cid :: rest.filterMap id from rfl]
        simp only [List.map_cons, List.sum_cons, this]
        omega

/-- When every occupied slot holds a leaf, the slot walk collects exactly the
occupied slots, in order, with no descent. -/
theorem leafWalk_all_leaves (q : OctreeQuantizer) (descend : Nat → Option (List Nat)) :
    ∀ slots : List (Option Nat),
      (∀ cid : Nat, (some cid) ∈ slots → ∃ cn, q.nodes[cid]? = some cn ∧
        0 < cn.pixel_count) →
      leafWalk q descend slots = some (slots.filterMap id) := by
  intro slots
  induction slots with
  | nil => exact fun _ => rfl
  | cons slot rest ih =>
    intro hb
    cases slot with
    | none => simpa [leafWalk] using ih (fun cid hc => hb cid (by simp [hc]))
    | some cid =>
      obtain ⟨cn, hcn, hpx⟩ := hb cid (by simp)
      have hleaf : cn.is_leaf = true := by simpa [OctreeNode.is_leaf] using hpx
      rw [show (some cid :: rest).filterMap id = cid :: rest.filterMap id from rfl]
      simp only [leafWalk, hcn, hleaf, ite_true, ih (fun c hc => hb c (by simp [hc]))]
      rfl

/-! ### Claim C5 amended: remove_leaves on a node whose children are leaves -/

/-- C5 amended: `remove_leaves` on a node with `pixelCount = 0` whose
existing children are all leaves folds each child's channel sums and pixel
count into the node, makes it a leaf (provided at least one child exists),
and returns `(number of existing children) - 1`; since the node's leaf
descendants were exactly its children (`get_leaf_nodes` returns them) and the
node afterwards counts as a single leaf, that return value is the net
decrease in leaf count contributed by this node's subtree.  (Without these
premises the claim fails, see the counterexample: folding a non-leaf child
leaves the node with `pixelCount = 0`, and the tracked leaf count
desynchronizes.) -/
theorem c5_amended :
    ∀ (q : OctreeQuantizer) (nid : Nat) (n : OctreeNode),
      q.nodes[nid]? = some n → n.pixel_count = 0 →
      (∀ cid : Nat, (some cid) ∈ n.children →
        ∃ cn, q.nodes[cid]? = some cn ∧ 0 < cn.pixel_count) →
      ∃ q' nf, removeLeaves q nid =
          some (q', ((n.children.filterMap id).length : Int) - 1) ∧
        q'.nodes = q.nodes.set nid nf ∧ q'.levels = q.levels ∧
        nf.children = n.children ∧ nf.palette_index = n.palette_index ∧
        nf.pixel_count = n.pixel_count +
          ((n.children.filterMap id).map (pixelAt q)).sum ∧
        nf.color.red = n.color.red + ((n.children.filterMap id).map (redAt q)).sum ∧
        nf.color.green = n.color.green +
          ((n.children.filterMap id).map (greenAt q)).sum ∧
        nf.color.blue = n.color.blue + ((n.children.filterMap id).map (blueAt q)).sum ∧
        (n.children.filterMap id ≠ [] → nf.is_leaf = true) ∧
        getLeafNodes q 1 nid = some (n.children.filterMap id) := by
  intro q nid n hn hpx hkids
  obtain ⟨q', nf, heq, hnodes, hlev, hroot, h1, h2, h3, h4, h5, h6⟩ :=
    removeLeavesGo_exact n.children q nid n 0 hn (fun cid hc => by
      obtain ⟨cn, hcn, hcp⟩ := hkids cid hc
      refine ⟨fun hh => ?_, cn, hcn⟩
      subst hh
      rw [hn] at hcn
      cases hcn
      omega)
  refine ⟨q', nf, ?_, hnodes, hlev, h1, h2, h3, h4, h5, h6, ?_, ?_⟩
  · simp only [removeLeaves, hn]
    simpa using heq
  · intro hne
    obtain ⟨cid, hcid⟩ := List.exists_mem_of_ne_nil _ hne
    have hmem : (some cid) ∈ n.children := by
      obtain ⟨b, hbmem, hbx⟩ := List.mem_filterMap.mp hcid
      cases hbx
      exact hbmem
    obtain ⟨cn, hcn, hcp⟩ := hkids cid hmem
    have hpix : pixelAt q cid = cn.pixel_count := by
      unfold pixelAt
      rw [hcn]
      rfl
    have hsum : 0 < ((n.children.filterMap id).map (pixelAt q)).sum := by
      calc 0 < pixelAt q cid := by omega
        _ ≤ _ := List.single_le_sum (by simp) _ (List.mem_map_of_mem _ hcid)
    simp only [OctreeNode.is_leaf, h3]
    simp
    omega
  · simp only [getLeafNodes, hn]
    exact leafWalk_all_leaves q _ n.children hkids

/-- C5 amended witness: node 7 of `Q1` (only child: the leaf 8). -/
theorem c5_amended_witness :
    ∃ q' nf, removeLeaves Q1 7 = some (q', (1 : Int) - 1) ∧
      q'.nodes = Q1.nodes.set 7 nf ∧ q'.levels = Q1.levels ∧
      nf.children = [some 8, none, none, none, none, none, none, none] ∧
      nf.palette_index = 0 ∧
      nf.pixel_count = 0 + ([8].map (pixelAt Q1)).sum ∧
      nf.color.red = 0 + ([8].map (redAt Q1)).sum ∧
      nf.color.green = 0 + ([8].map (greenAt Q1)).sum ∧
      nf.color.blue = 0 + ([8].map (blueAt Q1)).sum ∧
      (([8] : List Nat) ≠ [] → nf.is_leaf = true) ∧
      getLeafNodes Q1 1 7 = some [8] :=
  c5_amended Q1 7 (N 0 0 0 0 0 [some 8, none, none, none, none, none, none, none])
    rfl rfl
    (fun cid hc => by
      have hc' : some cid ∈ [some 8, none, none, none, none, none, none, none] := hc
      simp at hc'
      subst hc'
      exact ⟨N 0 0 0 1 0 [none, none, none, none, none, none, none, none], rfl,
        by decide⟩)

/-! ### Route and lookup machinery (claims C9 and C10)

The descent of `get_palette_index` re-derives the branch path of the queried
color.  The lemmas below show that after `add_color(c)` that path exists for
`c`, that it survives further ingestion, reduction and stamping, and that the
lookup along it returns the landing leaf's stored palette index. -/

/-- Arena facts of a successful `createNode`, with no registry assumptions. -/
theorem createNode_some (MD level : Nat) (q q1 : OctreeQuantizer) (cid : Nat)
    (h : createNode MD level q = some (q1, cid)) :
    q1.nodes = q.nodes ++ [newOctreeNode] ∧ q1.root = q.root ∧
    cid = q.nodes.length := by
  by_cases hl : level < MD - 1
  · cases hlv : q.levels[level]? with
    | none =>
      exact absurd h (by simp [createNode, if_pos hl, hlv])
    | some lst =>
      simp only [createNode, if_pos hl, hlv] at h
      cases h
      exact ⟨rfl, rfl, rfl⟩
  · simp only [createNode, if_neg hl] at h
    cases h
    exact ⟨rfl, rfl, rfl⟩

/-- Absorbing one color into an existing node is a `Mono` step. -/
theorem mono_absorb (q : OctreeQuantizer) (nid : Nat) (n : OctreeNode)
    (hn : q.nodes[nid]? = some n) (c : Color) :
    Mono q { q with nodes := q.nodes.set nid (absorbNode n c) } := by
  have hnid : nid < q.nodes.length := (List.getElem?_eq_some_iff.mp hn).1
  refine ⟨rfl, by simp, fun i m hm => ?_⟩
  by_cases hi : i = nid
  · subst hi
    rw [hn] at hm
    cases hm
    exact ⟨absorbNode n c, List.getElem?_set_self hnid,
      Nat.le_succ _, rfl, rfl, fun _ _ h => h⟩
  · exact ⟨m, (List.getElem?_set_ne (fun hh => hi hh.symm)).trans hm,
      nodeMono_refl m⟩

/-- Appending a fresh node and filling a previously empty child slot is a
`Mono` step, with no invariant assumptions. -/
theorem mono_link (q q2 : OctreeQuantizer) (nid idx : Nat) (n : OctreeNode)
    (hn : q.nodes[nid]? = some n) (hslot : n.children[idx]? = some none)
    (hq2 : q2.nodes = (q.nodes ++ [newOctreeNode]).set nid
      (linkNode n idx q.nodes.length))
    (hroot : q2.root = q.root) : Mono q q2 := by
  have hnid : nid < q.nodes.length := (List.getElem?_eq_some_iff.mp hn).1
  have hidxlt : idx < n.children.length := (List.getElem?_eq_some_iff.mp hslot).1
  obtain ⟨hget_nid, hget_fresh, hget_ne, hlen⟩ :=
    arena2_getElem q.nodes nid (linkNode n idx q.nodes.length) hnid
  refine ⟨hroot, by rw [hq2, hlen]; omega, fun i m hm => ?_⟩
  by_cases hi : i = nid
  · subst hi
    rw [hn] at hm
    cases hm
    refine ⟨linkNode n idx q.nodes.length, by rw [hq2]; exact hget_nid,
      Nat.le_refl _, by simp [linkNode], rfl, fun s j hs => ?_⟩
    show (n.children.set idx (some q.nodes.length))[s]? = some (some j)
    by_cases hsidx : s = idx
    · subst hsidx
      rw [hslot] at hs
      simp at hs
    · rw [List.getElem?_set_ne (fun hh => hsidx hh.symm)]
      exact hs
  · have hilt : i < q.nodes.length := (List.getElem?_eq_some_iff.mp hm).1
    exact ⟨m, by rw [hq2, hget_ne i hi, List.getElem?_append_left hilt]; exact hm,
      nodeMono_refl m⟩

/-- `addColorAux` is a `Mono` step regardless of invariants. -/
theorem addColorAux_mono (MD : Nat) :
    ∀ (fuel level : Nat) (q : OctreeQuantizer) (nid : Nat) (c : Color)
      (q' : OctreeQuantizer),
      addColorAux MD fuel q nid c level = some q' → Mono q q' := by
  intro fuel
  induction fuel with
  | zero =>
    intro level q nid c q' h
    by_cases hML : MD ≤ level
    · cases hn : q.nodes[nid]? with
      | none => exact absurd h (by simp [addColorAux, if_pos hML, hn])
      | some n =>
        simp only [addColorAux, if_pos hML, hn] at h
        cases h
        exact mono_absorb q nid n hn c
    · exact absurd h (by simp [addColorAux, if_neg hML])
  | succ fuel ih =>
    intro level q nid c q' h
    by_cases hML : MD ≤ level
    · cases hn : q.nodes[nid]? with
      | none => exact absurd h (by simp [addColorAux, if_pos hML, hn])
      | some n =>
        simp only [addColorAux, if_pos hML, hn] at h
        cases h
        exact mono_absorb q nid n hn c
    · cases hn : q.nodes[nid]? with
      | none => exact absurd h (by simp [addColorAux, if_neg hML, hn])
      | some n =>
        cases hslot : n.children[OctreeNode.get_color_index_for_level c level]? with
        | none => exact absurd h (by simp [addColorAux, if_neg hML, hn, hslot])
        | some slot =>
          cases slot with
          | some cid =>
            simp only [addColorAux, if_neg hML, hn, hslot] at h
            exact ih (level + 1) q cid c q' h
          | none =>
            cases hcr : createNode MD level q with
            | none =>
              exact absurd h (by simp [addColorAux, if_neg hML, hn, hslot, hcr])
            | some pr =>
              obtain ⟨q1, cid⟩ := pr
              obtain ⟨hq1nodes, hq1root, hcid⟩ :=
                createNode_some MD level q q1 cid hcr
              have hnid : nid < q.nodes.length := (List.getElem?_eq_some_iff.mp hn).1
              have hq1nid : q1.nodes[nid]? = some n := by
                rw [hq1nodes, List.getElem?_append_left hnid]
                exact hn
              simp only [addColorAux, if_neg hML, hn, hslot, hcr, hq1nid] at h
              refine mono_trans (mono_link q _ nid
                (OctreeNode.get_color_index_for_level c level) n hn hslot ?_ ?_)
                (ih (level + 1) _ cid c q' h)
              · show q1.nodes.set nid _ = _
                rw [hq1nodes, hcid]
                rfl
              · exact hq1root

/-- What the route descent needs preserved between states: the root, the
arena ids, leafness, and the occupied child slots. -/
def ShapeLe (q q' : OctreeQuantizer) : Prop :=
  q'.root = q.root ∧
  ∀ (i : Nat) (n : OctreeNode), q.nodes[i]? = some n →
    ∃ n', q'.nodes[i]? = some n' ∧
      (n.is_leaf = true → n'.is_leaf = true) ∧
      ∀ (s j : Nat), n.children[s]? = some (some j) →
        n'.children[s]? = some (some j)

theorem mono_shapeLe {q q' : OctreeQuantizer} (h : Mono q q') : ShapeLe q q' := by
  refine ⟨h.1, fun i n hn => ?_⟩
  obtain ⟨n', hn', hp, _, _, hs⟩ := h.2.2 i n hn
  refine ⟨n', hn', fun hl => ?_, hs⟩
  simp only [OctreeNode.is_leaf, gt_iff_lt, decide_eq_true_eq] at hl ⊢
  omega

theorem reduceMono_shapeLe {q q' : OctreeQuantizer} (h : ReduceMono q q') :
    ShapeLe q q' := by
  refine ⟨h.1, fun i n hn => ?_⟩
  obtain ⟨n', hn', hp, hc, _⟩ := h.2.2 i n hn
  refine ⟨n', hn', fun hl => ?_, fun s j hs => by rw [hc]; exact hs⟩
  simp only [OctreeNode.is_leaf, gt_iff_lt, decide_eq_true_eq] at hl ⊢
  omega

theorem stampEq_shapeLe {q q' : OctreeQuantizer} (h : StampEq q q') :
    ShapeLe q q' := by
  refine ⟨h.1, fun i n hn => ?_⟩
  obtain ⟨n', hn', hp, hc, _⟩ := h.2.2.2 i n hn
  refine ⟨n', hn', fun hl => ?_, fun s j hs => by rw [hc]; exact hs⟩
  simp only [OctreeNode.is_leaf, gt_iff_lt, decide_eq_true_eq] at hl ⊢
  omega

theorem shapeLe_trans {q q' q'' : OctreeQuantizer} (h1 : ShapeLe q q')
    (h2 : ShapeLe q' q'') : ShapeLe q q'' := by
  refine ⟨h2.1.trans h1.1, fun i n hn => ?_⟩
  obtain ⟨n', hn', hl, hs⟩ := h1.2 i n hn
  obtain ⟨n'', hn'', hl', hs'⟩ := h2.2 i n' hn'
  exact ⟨n'', hn'', fun h => hl' (hl h), fun s j h => hs' s j (hs s j h)⟩

/-- A successful route descent survives any shape-preserving evolution of the
state (possibly stopping earlier, at a node that has become a leaf). -/
theorem routeNodeAux_shapeLe {q q' : OctreeQuantizer} (h : ShapeLe q q') :
    ∀ (fuel nid level : Nat) (c : Color) (L : Nat),
      routeNodeAux q fuel nid c level = some L →
      ∃ L', routeNodeAux q' fuel nid c level = some L' := by
  intro fuel
  induction fuel with
  | zero =>
    intro nid level c L hr
    cases hr
  | succ fuel ih =>
    intro nid level c L hr
    cases hn : q.nodes[nid]? with
    | none =>
      exact absurd hr (by simp [routeNodeAux, hn])
    | some n =>
      obtain ⟨n', hn', hleaf, hslots⟩ := h.2 nid n hn
      by_cases hl : n.is_leaf
      · exact ⟨nid, by simp only [routeNodeAux, hn', hleaf hl, if_pos rfl, if_true]⟩
      · cases hslot : n.children[OctreeNode.get_color_index_for_level c level]? with
        | none =>
          exact absurd hr (by simp [routeNodeAux, hn, if_neg hl, hslot])
        | some s =>
          cases s with
          | none =>
            exact absurd hr (by simp [routeNodeAux, hn, if_neg hl, hslot])
          | some cid =>
            simp only [routeNodeAux, hn, if_neg hl, hslot] at hr
            obtain ⟨L', hL'⟩ := ih cid (level + 1) c L hr
            by_cases hl' : n'.is_leaf
            · exact ⟨nid, by simp only [routeNodeAux, hn', hl', if_pos rfl, if_true]⟩
            · exact ⟨L', by
                simp only [routeNodeAux, hn', if_neg hl', hslots _ cid hslot]
                exact hL'⟩

/-- Route fuel can always be raised without changing the result. -/
theorem routeNodeAux_fuel_mono (q : OctreeQuantizer) :
    ∀ (fuel fuel' nid level : Nat) (c : Color) (L : Nat), fuel ≤ fuel' →
      routeNodeAux q fuel nid c level = some L →
      routeNodeAux q fuel' nid c level = some L := by
  intro fuel
  induction fuel with
  | zero =>
    intro fuel' nid level c L _ hr
    cases hr
  | succ fuel ih =>
    intro fuel' nid level c L hle hr
    obtain ⟨f, rfl⟩ : ∃ f, fuel' = f + 1 := ⟨fuel' - 1, by omega⟩
    cases hn : q.nodes[nid]? with
    | none =>
      exact absurd hr (by simp [routeNodeAux, hn])
    | some n =>
      by_cases hl : n.is_leaf
      · simp only [routeNodeAux, hn, hl, if_pos rfl] at hr ⊢
        exact hr
      · cases hslot : n.children[OctreeNode.get_color_index_for_level c level]? with
        | none =>
          exact absurd hr (by simp [routeNodeAux, hn, if_neg hl, hslot])
        | some s =>
          cases s with
          | none =>
            exact absurd hr (by simp [routeNodeAux, hn, if_neg hl, hslot])
          | some cid =>
            simp only [routeNodeAux, hn, if_neg hl, hslot] at hr ⊢
            exact ih f cid (level + 1) c L (by omega) hr

/-- Under `ChildrenOk` the route descent advances strictly through the arena,
so `nodes.length - nid` units of fuel always suffice. -/
theorem routeNodeAux_norm (q : OctreeQuantizer) (hC : ChildrenOk q) :
    ∀ (fuel nid level : Nat) (c : Color) (L : Nat),
      routeNodeAux q fuel nid c level = some L →
      routeNodeAux q (q.nodes.length - nid) nid c level = some L := by
  intro fuel
  induction fuel with
  | zero =>
    intro nid level c L hr
    cases hr
  | succ fuel ih =>
    intro nid level c L hr
    cases hn : q.nodes[nid]? with
    | none =>
      exact absurd hr (by simp [routeNodeAux, hn])
    | some n =>
      have hnid : nid < q.nodes.length := (List.getElem?_eq_some_iff.mp hn).1
      obtain ⟨k, hk⟩ : ∃ k, q.nodes.length - nid = k + 1 :=
        ⟨q.nodes.length - nid - 1, by omega⟩
      rw [hk]
      by_cases hl : n.is_leaf
      · simp only [routeNodeAux, hn, hl, if_pos rfl] at hr ⊢
        exact hr
      · cases hslot : n.children[OctreeNode.get_color_index_for_level c level]? with
        | none =>
          exact absurd hr (by simp [routeNodeAux, hn, if_neg hl, hslot])
        | some s =>
          cases s with
          | none =>
            exact absurd hr (by simp [routeNodeAux, hn, if_neg hl, hslot])
          | some cid =>
            simp only [routeNodeAux, hn, if_neg hl, hslot] at hr ⊢
            have hcid := (hC nid n hn).2 _ cid hslot
            exact routeNodeAux_fuel_mono q _ k cid (level + 1) c L (by omega)
              (ih cid (level + 1) c L hr)

/-- A successful route descent is also the descent of `get_palette_index` and
of `lookupLeaf`: the fallback is never consulted, the landing node is a leaf,
and the lookup returns its stored palette index. -/
theorem lookup_of_route (q : OctreeQuantizer) :
    ∀ (fuel nid level : Nat) (c : Color) (L : Nat),
      routeNodeAux q fuel nid c level = some L →
      ∃ nL, q.nodes[L]? = some nL ∧ nL.is_leaf = true ∧
        lookupLeafAux q fuel nid c level = some (some L) ∧
        getPaletteIndexAux q fuel nid c level = some (some nL.palette_index) := by
  intro fuel
  induction fuel with
  | zero =>
    intro nid level c L hr
    cases hr
  | succ fuel ih =>
    intro nid level c L hr
    cases hn : q.nodes[nid]? with
    | none =>
      exact absurd hr (by simp [routeNodeAux, hn])
    | some n =>
      by_cases hl : n.is_leaf
      · simp only [routeNodeAux, hn, hl, if_pos rfl, if_true,
          Option.some.injEq] at hr
        subst hr
        exact ⟨n, hn, hl,
          by simp only [lookupLeafAux, hn, hl, if_pos rfl, if_true],
          by simp only [getPaletteIndexAux, hn, hl, if_pos rfl, if_true]⟩
      · cases hslot : n.children[OctreeNode.get_color_index_for_level c level]? with
        | none =>
          exact absurd hr (by simp [routeNodeAux, hn, if_neg hl, hslot])
        | some s =>
          cases s with
          | none =>
            exact absurd hr (by simp [routeNodeAux, hn, if_neg hl, hslot])
          | some cid =>
            simp only [routeNodeAux, hn, if_neg hl, hslot] at hr
            obtain ⟨nL, hnL, hleaf, hlk, hgp⟩ := ih cid (level + 1) c L hr
            refine ⟨nL, hnL, hleaf, ?_, ?_⟩
            · simp only [lookupLeafAux, hn, if_neg hl, hslot]
              exact hlk
            · simp only [getPaletteIndexAux, hn, if_neg hl, hslot]
              exact hgp

/-- Whenever the descent of `get_palette_index` lands on a node (fallback
included), the call returns exactly that node's stored palette index. -/
theorem getPaletteIndex_of_lookupLeaf (q : OctreeQuantizer) :
    ∀ (fuel nid level : Nat) (c : Color) (L : Nat),
      lookupLeafAux q fuel nid c level = some (some L) →
      ∃ nL, q.nodes[L]? = some nL ∧ nL.is_leaf = true ∧
        getPaletteIndexAux q fuel nid c level = some (some nL.palette_index) := by
  intro fuel
  induction fuel with
  | zero =>
    intro nid level c L hr
    cases hr
  | succ fuel ih =>
    intro nid level c L hr
    cases hn : q.nodes[nid]? with
    | none =>
      exact absurd hr (by simp [lookupLeafAux, hn])
    | some n =>
      by_cases hl : n.is_leaf
      · simp only [lookupLeafAux, hn, hl, if_pos rfl, if_true,
          Option.some.injEq] at hr
        subst hr
        exact ⟨n, hn, hl,
          by simp only [getPaletteIndexAux, hn, hl, if_pos rfl, if_true]⟩
      · cases hslot : n.children[OctreeNode.get_color_index_for_level c level]? with
        | none =>
          exact absurd hr (by simp [lookupLeafAux, hn, if_neg hl, hslot])
        | some s =>
          cases s with
          | some cid =>
            simp only [lookupLeafAux, hn, if_neg hl, hslot] at hr
            obtain ⟨nL, hnL, hleaf, hgp⟩ := ih cid (level + 1) c L hr
            refine ⟨nL, hnL, hleaf, ?_⟩
            simp only [getPaletteIndexAux, hn, if_neg hl, hslot]
            exact hgp
          | none =>
            cases hfc : firstChild n.children with
            | none =>
              exact absurd hr (by simp [lookupLeafAux, hn, if_neg hl, hslot, hfc])
            | some cid =>
              simp only [lookupLeafAux, hn, if_neg hl, hslot, hfc] at hr
              obtain ⟨nL, hnL, hleaf, hgp⟩ := ih cid (level + 1) c L hr
              refine ⟨nL, hnL, hleaf, ?_⟩
              simp only [getPaletteIndexAux, hn, if_neg hl, hslot, hfc]
              exact hgp

/-- After the absorb branch of `add_color` the entry node is a leaf, so the
route stops there at once. -/
theorem route_after_absorb (q : OctreeQuantizer) (nid : Nat) (n : OctreeNode)
    (hn : q.nodes[nid]? = some n) (c : Color) (fuel level : Nat) :
    ∃ L, routeNodeAux { q with nodes := q.nodes.set nid (absorbNode n c) }
      (fuel + 1) nid c level = some L := by
  have hnid : nid < q.nodes.length := (List.getElem?_eq_some_iff.mp hn).1
  have hget : ({ q with nodes := q.nodes.set nid (absorbNode n c) } :
      OctreeQuantizer).nodes[nid]? = some (absorbNode n c) :=
    List.getElem?_set_self hnid
  have hleafa : (absorbNode n c).is_leaf = true := by
    simp only [absorbNode, OctreeNode.is_leaf, gt_iff_lt, decide_eq_true_eq]
    omega
  exact ⟨nid, by simp only [routeNodeAux, hget, hleafa, if_pos rfl, if_true]⟩

/-- After an `add_color` descent the branch path of the added color exists in
the resulting state: the route re-derivation succeeds with one more unit of
fuel than the descent consumed. -/
theorem addColorAux_route (MD : Nat) :
    ∀ (fuel level : Nat) (q : OctreeQuantizer) (nid : Nat) (c : Color)
      (q' : OctreeQuantizer),
      addColorAux MD fuel q nid c level = some q' →
      ∃ L, routeNodeAux q' (fuel + 1) nid c level = some L := by
  intro fuel
  induction fuel with
  | zero =>
    intro level q nid c q' h
    by_cases hML : MD ≤ level
    · cases hn : q.nodes[nid]? with
      | none => exact absurd h (by simp [addColorAux, if_pos hML, hn])
      | some n =>
        simp only [addColorAux, if_pos hML, hn] at h
        cases h
        exact route_after_absorb q nid n hn c 0 level
    · exact absurd h (by simp [addColorAux, if_neg hML])
  | succ fuel ih =>
    intro level q nid c q' h
    by_cases hML : MD ≤ level
    · cases hn : q.nodes[nid]? with
      | none => exact absurd h (by simp [addColorAux, if_pos hML, hn])
      | some n =>
        simp only [addColorAux, if_pos hML, hn] at h
        cases h
        exact route_after_absorb q nid n hn c (fuel + 1) level
    · cases hn : q.nodes[nid]? with
      | none => exact absurd h (by simp [addColorAux, if_neg hML, hn])
      | some n =>
        cases hslot : n.children[OctreeNode.get_color_index_for_level c level]? with
        | none => exact absurd h (by simp [addColorAux, if_neg hML, hn, hslot])
        | some slot =>
          cases slot with
          | some cid =>
            simp only [addColorAux, if_neg hML, hn, hslot] at h
            obtain ⟨L, hL⟩ := ih (level + 1) q cid c q' h
            have hmono := addColorAux_mono MD fuel (level + 1) q cid c q' h
            obtain ⟨n', hn', hm⟩ := hmono.2.2 nid n hn
            have hslot' := hm.2.2.2 _ cid hslot
            by_cases hl' : n'.is_leaf
            · exact ⟨nid, by simp only [routeNodeAux, hn', hl', if_pos rfl, if_true]⟩
            · exact ⟨L, by
                simp only [routeNodeAux, hn', if_neg hl', hslot']
                exact hL⟩
          | none =>
            cases hcr : createNode MD level q with
            | none =>
              exact absurd h (by simp [addColorAux, if_neg hML, hn, hslot, hcr])
            | some pr =>
              obtain ⟨q1, cid⟩ := pr
              obtain ⟨hq1nodes, hq1root, hcid⟩ :=
                createNode_some MD level q q1 cid hcr
              have hnid : nid < q.nodes.length := (List.getElem?_eq_some_iff.mp hn).1
              have hidxlt : OctreeNode.get_color_index_for_level c level <
                  n.children.length := (List.getElem?_eq_some_iff.mp hslot).1
              have hq1nid : q1.nodes[nid]? = some n := by
                rw [hq1nodes, List.getElem?_append_left hnid]
                exact hn
              simp only [addColorAux, if_neg hML, hn, hslot, hcr, hq1nid] at h
              set q2 : OctreeQuantizer := { q1 with nodes := q1.nodes.set nid { n with children := n.children.set (OctreeNode.get_color_index_for_level c level) (some cid) } } with hq2def
              obtain ⟨L, hL⟩ := ih (level + 1) q2 cid c q' h
              have hmono := addColorAux_mono MD fuel (level + 1) q2 cid c q' h
              have hq2nid : q2.nodes[nid]? =
                  some (linkNode n (OctreeNode.get_color_index_for_level c level) cid) := by
                rw [hq2def]
                exact List.getElem?_set_self (by rw [hq1nodes]; simp; omega)
              obtain ⟨n', hn', hm⟩ := hmono.2.2 nid _ hq2nid
              have hslot' : n'.children[OctreeNode.get_color_index_for_level c
                  level]? = some (some cid) :=
                hm.2.2.2 _ cid (List.getElem?_set_self hidxlt)
              by_cases hl' : n'.is_leaf
              · exact ⟨nid, by simp only [routeNodeAux, hn', hl', if_pos rfl, if_true]⟩
              · exact ⟨L, by
                  simp only [routeNodeAux, hn', if_neg hl', hslot']
                  exact hL⟩

/-- `addAll` on an already failed state stays failed. -/
theorem addAll_none (MD : Nat) (cs : List Color) : addAll MD none cs = none := by
  cases cs <;> rfl

/-- Ingesting a whole color list is a `Mono` step. -/
theorem addAll_mono :
    ∀ (cs : List Color) (q q' : OctreeQuantizer),
      addAll 8 (some q) cs = some q' → Mono q q' := by
  intro cs
  induction cs with
  | nil =>
    intro q q' h
    cases h
    exact mono_refl q
  | cons c rest ih =>
    intro q q' h
    rw [addAll_cons] at h
    cases hq1 : q.add_color 8 c with
    | none =>
      rw [hq1, addAll_none] at h
      cases h
    | some q1 =>
      rw [hq1] at h
      exact mono_trans (addColorAux_mono 8 8 0 q q.root c q1 hq1) (ih q1 q' h)

/-- Every ingested color has a successful route re-derivation from the root
in the final phase-1 state, with fuel `MAX_DEPTH + 1 = 9`. -/
theorem addAll_route :
    ∀ (cs : List Color) (q q' : OctreeQuantizer),
      addAll 8 (some q) cs = some q' → ∀ c ∈ cs,
      ∃ L, routeNodeAux q' 9 q'.root c 0 = some L := by
  intro cs
  induction cs with
  | nil =>
    intro q q' h c hc
    cases hc
  | cons c0 rest ih =>
    intro q q' h c hc
    rw [addAll_cons] at h
    cases hq1 : q.add_color 8 c0 with
    | none =>
      rw [hq1, addAll_none] at h
      cases h
    | some q1 =>
      rw [hq1] at h
      rcases List.mem_cons.mp hc with rfl | hcr
      · obtain ⟨L, hL⟩ := addColorAux_route 8 8 0 q q.root c q1 hq1
        have hmono : Mono q1 q' := addAll_mono rest q1 q' h
        have hroots : q'.root = q.root := by
          rw [hmono.1, (addColorAux_mono 8 8 0 q q.root c q1 hq1).1]
        obtain ⟨L', hL'⟩ := routeNodeAux_shapeLe (mono_shapeLe hmono) 9 q.root 0 c L hL
        exact ⟨L', by rw [hroots]; exact hL'⟩
      · exact ih q1 q' h c hcr

/-- Backward node access under `StampEq`. -/
theorem stampEq_back {q q' : OctreeQuantizer} (h : StampEq q q') :
    ∀ (i : Nat) (n' : OctreeNode), q'.nodes[i]? = some n' →
      ∃ n, q.nodes[i]? = some n ∧ n'.pixel_count = n.pixel_count ∧
        n'.children = n.children ∧ n'.color = n.color := by
  intro i n' hn'
  have hi : i < q.nodes.length := by
    have h1 := (List.getElem?_eq_some_iff.mp hn').1
    have h2 := h.2.1
    omega
  obtain ⟨n, hn⟩ : ∃ n, q.nodes[i]? = some n := ⟨_, List.getElem?_eq_getElem hi⟩
  obtain ⟨n'', hn'', hp, hc, hcol⟩ := h.2.2.2 i n hn
  rw [hn''] at hn'
  cases hn'
  exact ⟨n, hn, hp, hc, hcol⟩

/-- `ChildrenOk` survives the stamping phase (children untouched). -/
theorem childrenOk_stamp {q q' : OctreeQuantizer} (h : StampEq q q')
    (hC : ChildrenOk q) : ChildrenOk q' := by
  intro i n' hn'
  obtain ⟨n, hn, _, hc, _⟩ := stampEq_back h i n' hn'
  obtain ⟨hlen, hsl⟩ := hC i n hn
  refine ⟨by rw [hc, hlen], fun s j hs => ?_⟩
  have hj := hsl s j (by rw [← hc]; exact hs)
  exact ⟨hj.1, by rw [h.2.1]; exact hj.2⟩

/-- `leafWalk` reads only leafness and child slots, so it is stable under the
stamping phase. -/
theorem leafWalk_stamp {q q' : OctreeQuantizer} (h : StampEq q q')
    (d d' : Nat → Option (List Nat)) (hd : ∀ cid, d' cid = d cid) :
    ∀ slots : List (Option Nat), leafWalk q' d' slots = leafWalk q d slots := by
  intro slots
  induction slots with
  | nil => rfl
  | cons s rest ih =>
    cases s with
    | none =>
      simp only [leafWalk]
      exact ih
    | some cid =>
      cases hn : q.nodes[cid]? with
      | none =>
        have hn' : q'.nodes[cid]? = none := by
          rw [List.getElem?_eq_none_iff] at hn ⊢
          rw [h.2.1]
          exact hn
        simp only [leafWalk, hn, hn']
      | some cn =>
        obtain ⟨cn', hcn', hp, hc, _⟩ := h.2.2.2 cid cn hn
        have hleaf : cn'.is_leaf = cn.is_leaf := by
          simp only [OctreeNode.is_leaf, hp]
        simp only [leafWalk, hn, hcn', hleaf, hd cid, ih]

/-- `getLeafNodes` is stable under the stamping phase. -/
theorem getLeafNodes_stamp {q q' : OctreeQuantizer} (h : StampEq q q') :
    ∀ (fuel nid : Nat), getLeafNodes q' fuel nid = getLeafNodes q fuel nid := by
  intro fuel
  induction fuel with
  | zero =>
    intro nid
    rfl
  | succ fuel ih =>
    intro nid
    cases hn : q.nodes[nid]? with
    | none =>
      have hn' : q'.nodes[nid]? = none := by
        rw [List.getElem?_eq_none_iff] at hn ⊢
        rw [h.2.1]
        exact hn
      simp only [getLeafNodes, hn, hn']
    | some n =>
      obtain ⟨n', hn', _, hc, _⟩ := h.2.2.2 nid n hn
      simp only [getLeafNodes, hn, hn', hc]
      exact leafWalk_stamp h _ _ (fun cid => ih cid) n.children

/-- The leaf enumeration is unchanged by the stamping phase. -/
theorem get_leaves_stamp {q q' : OctreeQuantizer} (h : StampEq q q') :
    q'.get_leaves = q.get_leaves := by
  unfold OctreeQuantizer.get_leaves
  rw [h.2.1, h.1, getLeafNodes_stamp h]

/-- C9 amended: for every color `c` ingested at least once, the lookup after
`make_palette` follows exactly the re-derived branch path of `c` on the final
tree (the first-existing-child fallback is never consulted), lands on a leaf
`L`, and returns `L`'s stored palette index; if `L` occurs among the first
`targetCount` positions of the leaf enumeration then the palette entry at the
returned index is exactly `L`'s average color.  (The original claim — that
the landing leaf is the very leaf `c` was routed into during building and
that the returned index's palette color is always that leaf's average — fails
once reduction collapses the build-time leaf or the landing leaf is left
unstamped; see the counterexample.) -/
theorem c9_amended :
    ∀ (cs : List Color) (q : OctreeQuantizer), buildQ cs = some q →
    ∀ (t : Int) (pal : List Color) (q' : OctreeQuantizer),
      q.make_palette 8 t = some (pal, q') →
    ∀ c ∈ cs,
    ∃ (L : Nat) (nL : OctreeNode) (leaves : List Nat),
      routeNode q' c = some L ∧
      q'.nodes[L]? = some nL ∧ nL.is_leaf = true ∧
      lookupLeaf q' c = some (some L) ∧
      q'.get_palette_index c = some (some nL.palette_index) ∧
      q'.get_leaves = some leaves ∧
      (∀ k : Nat, leaves[k]? = some L → (k : Int) < t →
        pal[nL.palette_index]? = avgOf q' L) := by
  intro cs q hq t pal q' hmp c hc
  obtain ⟨hwf, hpz, _⟩ := buildQ_inv cs q hq
  obtain ⟨leaves0, q1, lc1, leaves1, pal₂, q₂', hleaves0, hred, hleaves1, hbuild,
    hmp₂, hm1, hstamp⟩ := make_palette_parts q t hwf
  rw [hmp] at hmp₂
  cases hmp₂
  have hq'' : addAll 8 (some QI) cs = some q := by
    rw [buildQ, step_init] at hq
    exact hq
  obtain ⟨L0, hL0⟩ := addAll_route cs QI q hq'' c hc
  have hshape : ShapeLe q q' :=
    shapeLe_trans (reduceMono_shapeLe hm1) (stampEq_shapeLe hstamp)
  obtain ⟨L1, hL1⟩ := routeNodeAux_shapeLe hshape 9 q.root 0 c L0 hL0
  have hroot' : q'.root = q.root := hstamp.1.trans hm1.1
  have hC' : ChildrenOk q' :=
    childrenOk_stamp hstamp (childrenOk_reduce hm1 hwf.childrenOk)
  have hLn := routeNodeAux_norm q' hC' 9 q.root 0 c L1 hL1
  have hLw : routeNodeAux q' (q'.nodes.length + 1) q'.root c 0 = some L1 := by
    rw [hroot']
    exact routeNodeAux_fuel_mono q' _ _ q.root 0 c L1 (by omega) hLn
  obtain ⟨nL, hnL, hleafL, hlk, hgp⟩ :=
    lookup_of_route q' (q'.nodes.length + 1) q'.root 0 c L1 hLw
  obtain ⟨pal₃, q₃, hbuild₃, _, ⟨newPart, hpal, hnplen, hnpval⟩, hassign, _⟩ :=
    buildPalette_spec leaves1 q1 [] 0 t
      (fun id hid => getLeafNodes_leaves q1 _ _ _ hleaves1 id hid)
  rw [hbuild] at hbuild₃
  cases hbuild₃
  refine ⟨L1, nL, leaves1, hLw, hnL, hleafL, hlk, hgp,
    by rw [get_leaves_stamp hstamp]; exact hleaves1, ?_⟩
  intro k hk hkt
  obtain ⟨p, hpt, hppos, hppi⟩ := hassign L1 k hk (by push_cast; omega)
  have hpi : nL.palette_index = p := by
    have := hppi nL hnL
    omega
  rw [hpi, hpal, stampEq_avgOf hstamp L1]
  simpa using hnpval p L1 hppos hpt

/-- C9 amended witness: the four-color scenario with target 2, queried at
`(0,0,0)`. -/
theorem c9_amended_witness :
    ∃ (L : Nat) (nL : OctreeNode) (leaves : List Nat),
      routeNode MP4post blackC = some L ∧
      MP4post.nodes[L]? = some nL ∧ nL.is_leaf = true ∧
      lookupLeaf MP4post blackC = some (some L) ∧
      MP4post.get_palette_index blackC = some (some nL.palette_index) ∧
      MP4post.get_leaves = some leaves ∧
      (∀ k : Nat, leaves[k]? = some L → (k : Int) < 2 →
        [Cl 0 0 0, Cl 254 254 254][nL.palette_index]? = avgOf MP4post L) :=
  c9_amended fourColors Q4 step_buildQ_four 2 [Cl 0 0 0, Cl 254 254 254] MP4post
    step_mp4 blackC (by simp [fourColors])

/-- C10: every node is created with `palette_index = 0`; after
`make_palette`, any node that does not occur among the first `targetCount`
positions of the leaf enumeration still has `palette_index = 0` (the
palette-building loop stamps only the first `targetCount` enumerated
leaves), and any `get_palette_index` call whose descent lands on such a
surplus leaf returns index 0, the index of the first palette entry. -/
theorem c10 :
    newOctreeNode.palette_index = 0 ∧
    ∀ (cs : List Color) (q : OctreeQuantizer), buildQ cs = some q →
    ∀ (t : Int) (pal : List Color) (q' : OctreeQuantizer),
      q.make_palette 8 t = some (pal, q') →
    ∃ leaves : List Nat, q'.get_leaves = some leaves ∧
      ∀ (L : Nat) (nL : OctreeNode), q'.nodes[L]? = some nL →
        (∀ j : Nat, (j : Int) < t → leaves[j]? ≠ some L) →
        nL.palette_index = 0 ∧
        ∀ c : Color, lookupLeaf q' c = some (some L) →
          q'.get_palette_index c = some (some 0) := by
  refine ⟨rfl, ?_⟩
  intro cs q hq t pal q' hmp
  obtain ⟨hwf, hpz, _⟩ := buildQ_inv cs q hq
  obtain ⟨leaves0, q1, lc1, leaves1, pal₂, q₂', hleaves0, hred, hleaves1, hbuild,
    hmp₂, hm1, hstamp⟩ := make_palette_parts q t hwf
  rw [hmp] at hmp₂
  cases hmp₂
  have hpz1 : PaletteZero q1 := paletteZero_reduce hm1 hpz
  obtain ⟨pal₃, q₃, hbuild₃, _, _, _, hkeep⟩ :=
    buildPalette_spec leaves1 q1 [] 0 t
      (fun id hid => getLeafNodes_leaves q1 _ _ _ hleaves1 id hid)
  rw [hbuild] at hbuild₃
  cases hbuild₃
  refine ⟨leaves1, by rw [get_leaves_stamp hstamp]; exact hleaves1, ?_⟩
  intro L nL hnL hsur
  obtain ⟨n1L, hn1L, _, _, _⟩ := stampEq_back hstamp L nL hnL
  obtain ⟨nx', hnx', hpix⟩ := hkeep L n1L hn1L (fun j hj hjL =>
    hsur j (by push_cast at hj; omega) hjL)
  rw [hnL] at hnx'
  cases hnx'
  have hLzero : nL.palette_index = 0 := by
    rw [hpix]
    exact hpz1 L n1L hn1L
  refine ⟨hLzero, ?_⟩
  intro c hlkc
  obtain ⟨nL', hnL', _, hgp⟩ :=
    getPaletteIndex_of_lookupLeaf q' (q'.nodes.length + 1) q'.root 0 c L hlkc
  rw [hnL] at hnL'
  cases hnL'
  rw [hLzero] at hgp
  exact hgp

/-- C10 witness: the two-color desync scenario with target 1, where the
enumeration holds two leaves but only the first is stamped. -/
theorem c10_witness :
    newOctreeNode.palette_index = 0 ∧
    ∃ leaves : List Nat, MPWpost.get_leaves = some leaves ∧
      ∀ (L : Nat) (nL : OctreeNode), MPWpost.nodes[L]? = some nL →
        (∀ j : Nat, (j : Int) < 1 → leaves[j]? ≠ some L) →
        nL.palette_index = 0 ∧
        ∀ c : Color, lookupLeaf MPWpost c = some (some L) →
          MPWpost.get_palette_index c = some (some 0) :=
  ⟨c10.1, c10.2 [blackC, whiteC] W2 step_buildQ_bw 1 [Cl 0 0 0] MPWpost step_mpW⟩
